import Mathlib

/-!
Shallow embedding of the EVoCv2 LLM pipeline core: the versioned cell store
(`src/services/cell_management_service.py`), the seven pipeline agents
(`src/agents/*.py`), the coordinator (`src/services/agent_coordinator.py`)
and the cell-regeneration endpoint (`src/api/agents.py`).

Modelling conventions:
- database rows live in an explicit `CellStore` state (a list of rows plus a
  fresh-id counter and a logical clock standing in for `uuid4()` and
  `datetime.utcnow()`);
- the ChatGroq LLM backend is an oracle `Oracle` mapping
  (prompt, system prompt, max_tokens) to `Except String String`; an
  `Except.error` models a raised `GenerationError`;
- Python dicts keyed by strings are association lists with
  insert-or-overwrite-in-place semantics (`ctxSet`);
- `str(...)` / f-string rendering of Python lists and dicts of strings is
  modelled by `pyStrList` / `pyStrDict`, which reproduce CPython repr for
  strings that contain no quote or escape characters (the only case the
  claims exercise); constraint dicts are modelled with string values.
-/

/-- The single-quote character, used by Python repr of strings. -/
def pyQuote : String := String.singleton (Char.ofNat 39)

/-- `listStartsWith hay needle` is true when `needle` is an initial segment
of `hay` (both as character lists). -/
def listStartsWith : List Char → List Char → Bool
  | _, [] => true
  | [], _ :: _ => false
  | a :: hs, b :: ns => a == b && listStartsWith hs ns

/-- `listHasSub hay needle`: does `needle` occur as a contiguous run of
`hay`?  Models Python's `needle in hay` on strings. -/
def listHasSub : List Char → List Char → Bool
  | [], needle => needle.isEmpty
  | a :: hs, needle => listStartsWith (a :: hs) needle || listHasSub hs needle

/-- Python `needle in hay` for strings. -/
def strHasSub (hay needle : String) : Bool :=
  listHasSub hay.toList needle.toList

/-- Python `str.lower()` (character-wise, via the character list so that
it reduces inside the kernel). -/
def strLower (s : String) : String := String.mk (s.toList.map Char.toLower)

/-- Python `str.upper()`. -/
def strUpper (s : String) : String := String.mk (s.toList.map Char.toUpper)

/-- Python character slicing `s[:n]`. -/
def strTake (s : String) (n : Nat) : String := String.mk (s.toList.take n)

/-- CPython `repr` of a string without quote/escape characters. -/
def pyReprStr (s : String) : String := pyQuote ++ s ++ pyQuote

/-- CPython `str`/`repr` of a list of strings, e.g. `['a', 'b']`. -/
def pyStrList (xs : List String) : String :=
  "[" ++ String.intercalate ", " (xs.map pyReprStr) ++ "]"

/-- CPython `str`/`repr` of a dict with string keys and values. -/
def pyStrDict (m : List (String × String)) : String :=
  "\x7b" ++
    String.intercalate ", "
      (m.map (fun p => pyReprStr p.1 ++ ": " ++ pyReprStr p.2)) ++
  "\x7d"

/-- `n` copies of character `c`, for the `"=" * 60` / `"-" * 40` banners. -/
def strRepeat (c : Char) (n : Nat) : String := String.mk (List.replicate n c)

/-! ## Cell store  (`src/services/cell_management_service.py`)

A row of the `notebook_cells` table.  Row ids (source: `uuid4()` strings) are
modelled as naturals drawn from the store's fresh-id counter; timestamps
(source: `datetime.utcnow()`) as naturals drawn from the store's logical
clock, which advances on every write operation. -/
structure Cell where
  id : Nat
  notebook_id : Nat
  cell_type : String
  code : String
  agent_id : String
  version : Nat
  position : Int
  is_active : Bool
  created_at : Nat
  updated_at : Nat
deriving DecidableEq, Repr

/-- The database state seen by `CellManagementService`. -/
structure CellStore where
  rows : List Cell
  nextId : Nat
  now : Nat
deriving DecidableEq, Repr

/-- A store with no rows (a fresh database). -/
def emptyStore : CellStore := { rows := [], nextId := 0, now := 0 }

/-- Result dict of `update_or_create_cell` / `_create_cell` / `_update_cell`:
`{"cell_id": ..., "version": ..., "action": ...}`. -/
structure UpsertResult where
  cell_id : Nat
  version : Nat
  action : String
deriving DecidableEq, Repr

/-- `ORDER BY version DESC` comparison used by `_get_cell_by_type`. -/
def versionDesc (a b : Cell) : Prop := b.version ≤ a.version

instance : DecidableRel versionDesc := fun a b => Nat.decLe b.version a.version

instance : IsTotal Cell versionDesc :=
  ⟨fun a b => Or.symm (Nat.le_total a.version b.version)⟩

instance : IsTrans Cell versionDesc :=
  ⟨fun _ _ _ h1 h2 => Nat.le_trans h2 h1⟩

/-- The rows the `_get_cell_by_type` SELECT ranges over: active rows of the
given `(notebook_id, cell_type)` pair. -/
def activeCellsOf (s : CellStore) (nb : Nat) (ct : String) : List Cell :=
  s.rows.filter fun c =>
    c.notebook_id == nb && c.cell_type == ct && c.is_active

/-- `CellManagementService._get_cell_by_type`: the active row for
`(notebook_id, cell_type)` with the highest version (`ORDER BY version DESC
LIMIT 1`), if any. -/
def getCellByType (s : CellStore) (nb : Nat) (ct : String) : Option Cell :=
  (List.insertionSort versionDesc (activeCellsOf s nb ct)).head?

/-- `CellManagementService._create_cell`: INSERT a fresh row with
`version = 1`, `is_active = true` and the given position. -/
def createCell (s : CellStore) (nb : Nat) (ct code aid : String)
    (pos : Int) : CellStore × UpsertResult :=
  let c : Cell :=
    { id := s.nextId
      notebook_id := nb
      cell_type := ct
      code := code
      agent_id := aid
      version := 1
      position := pos
      is_active := true
      created_at := s.now
      updated_at := s.now }
  ({ rows := s.rows ++ [c], nextId := s.nextId + 1, now := s.now + 1 },
   { cell_id := s.nextId, version := 1, action := "created" })

/-- `CellManagementService._update_cell`: re-read the row's version by id,
then UPDATE `code`, `agent_id`, `version` and `updated_at` in place.  The
source assumes the row exists (`scalar()` is non-None); the `getD 0`
branch is unreachable in every call site, which passes an id obtained from
`_get_cell_by_type`. -/
def updateCell (s : CellStore) (cid : Nat) (code aid : String) :
    CellStore × UpsertResult :=
  let currentVersion :=
    ((s.rows.find? fun c => c.id == cid).map Cell.version).getD 0
  let newVersion := currentVersion + 1
  ({ rows := s.rows.map fun c =>
       if c.id == cid then
         { c with code := code, agent_id := aid, version := newVersion,
                  updated_at := s.now }
       else c
     nextId := s.nextId
     now := s.now + 1 },
   { cell_id := cid, version := newVersion, action := "updated" })

/-- `CellManagementService.update_or_create_cell`: update the existing
active cell for the `(notebook_id, cell_type)` pair, or create one. -/
def update_or_create_cell (s : CellStore) (nb : Nat) (ct code aid : String)
    (pos : Int) : CellStore × UpsertResult :=
  match getCellByType s nb ct with
  | some existing => updateCell s existing.id code aid
  | none => createCell s nb ct code aid pos

/-- The cell dict returned by `get_notebook_cells` (no `notebook_id`,
no `is_active`; timestamps rendered by `isoformat()` in the source). -/
structure CellView where
  id : Nat
  cell_type : String
  code : String
  agent_id : String
  version : Nat
  position : Int
  created_at : Nat
  updated_at : Nat
deriving DecidableEq, Repr

/-- Projection from a row to its listed dict. -/
def Cell.toView (c : Cell) : CellView :=
  { id := c.id, cell_type := c.cell_type, code := c.code,
    agent_id := c.agent_id, version := c.version, position := c.position,
    created_at := c.created_at, updated_at := c.updated_at }

/-- `ORDER BY position, created_at` comparison used by
`get_notebook_cells`. -/
def positionCreatedLe (a b : Cell) : Prop :=
  a.position < b.position ∨ (a.position = b.position ∧ a.created_at ≤ b.created_at)

instance : DecidableRel positionCreatedLe := fun _ _ =>
  inferInstanceAs (Decidable (_ ∨ _))

instance : IsTotal Cell positionCreatedLe := by
  constructor
  intro a b
  rcases lt_trichotomy a.position b.position with h | h | h
  · exact Or.inl (Or.inl h)
  · rcases Nat.le_total a.created_at b.created_at with h2 | h2
    · exact Or.inl (Or.inr ⟨h, h2⟩)
    · exact Or.inr (Or.inr ⟨h.symm, h2⟩)
  · exact Or.inr (Or.inl h)

instance : IsTrans Cell positionCreatedLe := by
  constructor
  intro a b c hab hbc
  rcases hab with h1 | ⟨h1, h1'⟩
  · rcases hbc with h2 | ⟨h2, _⟩
    · exact Or.inl (h1.trans h2)
    · exact Or.inl (h2 ▸ h1)
  · rcases hbc with h2 | ⟨h2, h2'⟩
    · exact Or.inl (h1 ▸ h2)
    · exact Or.inr ⟨h1.trans h2, h1'.trans h2'⟩

/-- The active rows of a notebook (the WHERE clause of
`get_notebook_cells`). -/
def notebookActiveRows (s : CellStore) (nb : Nat) : List Cell :=
  s.rows.filter fun c => c.notebook_id == nb && c.is_active

/-- `CellManagementService.get_notebook_cells`: all active cells of a
notebook, ordered by `position, created_at`. -/
def get_notebook_cells (s : CellStore) (nb : Nat) : List CellView :=
  (List.insertionSort positionCreatedLe (notebookActiveRows s nb)).map Cell.toView

/-- The header comment of one block of the concatenated program view:
`# {cell_type upper-cased} - Generated by {agent_id}`. -/
def cellHeader (c : CellView) : String :=
  "# " ++ strUpper c.cell_type ++ " - Generated by " ++ c.agent_id

/-- The lines one cell contributes to the concatenated program view. -/
def cellBlock (c : CellView) : List String :=
  [cellHeader c, "# " ++ strRepeat (Char.ofNat 45) 40, c.code, ""]

/-- `CellManagementService.get_complete_notebook_code`: the concatenated
program view of a notebook. -/
def get_complete_notebook_code (s : CellStore) (nb : Nat) : String :=
  let cells := get_notebook_cells s nb
  if cells.isEmpty then "# No code generated yet"
  else
    String.intercalate "\n"
      (["# Complete DEAP Algorithm Generated by Multi-Agent System",
        "# " ++ strRepeat (Char.ofNat 61) 60,
        ""] ++ cells.flatMap cellBlock)

/-! ## Problem context and the Problem Analyser's derived analysis
(`src/agents/problem_analyser_agent.py`)

The coordinate and regenerate endpoints always build the problem-context
dict with all five keys (`src/api/agents.py`), so the `problem_context.get`
defaults of the source are never exercised and the context is modelled as a
structure. -/
structure ProblemContext where
  title : String
  description : String
  problem_type : String
  objectives : List String
  constraints : List (String × String)
deriving DecidableEq, Repr

/-- The `analysis` dict built by `ProblemAnalyserAgent.generate_code`
(fields in source insertion order). -/
structure Analysis where
  problem_type : String
  objectives : List String
  constraints : List (String × String)
  individual_structure : String
  optimization_direction : String
deriving DecidableEq, Repr

/-- The derivation of the `analysis` dict from the problem context
(`problem_analyser_agent.py` lines 46-52): `individual_structure` is the
constant `"list"`; `optimization_direction` is `"maximize"` exactly when
`"maximize"` occurs in `str(objectives).lower()`. -/
def deriveAnalysis (pc : ProblemContext) : Analysis :=
  { problem_type := pc.problem_type
    objectives := pc.objectives
    constraints := pc.constraints
    individual_structure := "list"
    optimization_direction :=
      if strHasSub (strLower (pyStrList pc.objectives)) "maximize" then
        "maximize"
      else "minimize" }

/-! ## Agent context dictionaries (`src/agents/base_agent.py`) -/

/-- A value stored in an agent's `context` dict: either a code string
(under a `"..._code"` key) or the Problem Analyser's `analysis` dict. -/
inductive CtxVal where
  | str (s : String)
  | analysis (a : Analysis)
deriving DecidableEq, Repr

/-- An agent's `context`: a Python dict from string keys to values,
modelled as an association list in insertion order with unique keys. -/
abbrev Ctx := List (String × CtxVal)

/-- Python dict lookup (`context[k]` / `context.get(k)`). -/
def ctxGet (ctx : Ctx) (k : String) : Option CtxVal :=
  (ctx.find? fun p => p.1 == k).map Prod.snd

/-- Python dict assignment `context[k] = v`: overwrite in place when the
key exists, append otherwise. -/
def ctxSet (ctx : Ctx) (k : String) (v : CtxVal) : Ctx :=
  if ctx.any (fun p => p.1 == k) then
    ctx.map fun p => if p.1 == k then (k, v) else p
  else ctx ++ [(k, v)]

/-- `context.get("analysis", {})`, as consumed by the downstream agents:
`none` models the empty-dict default. -/
def ctxGetAnalysis (ctx : Ctx) : Option Analysis :=
  match ctxGet ctx "analysis" with
  | some (CtxVal.analysis a) => some a
  | _ => none

/-- `context.get(k, "")` for the `"..._code"` string entries. -/
def ctxGetStr (ctx : Ctx) (k : String) : String :=
  match ctxGet ctx k with
  | some (CtxVal.str s) => s
  | _ => ""

/-- `analysis.get('problem_type', 'optimization')` on a maybe-empty dict. -/
def analysisProblemType : Option Analysis → String
  | some a => a.problem_type
  | none => "optimization"

/-- `analysis.get('objectives', [])`. -/
def analysisObjectives : Option Analysis → List String
  | some a => a.objectives
  | none => []

/-- `analysis.get('constraints', {})`. -/
def analysisConstraints : Option Analysis → List (String × String)
  | some a => a.constraints
  | none => []

/-- `analysis.get('optimization_direction', 'maximize')`. -/
def analysisDirection : Option Analysis → String
  | some a => a.optimization_direction
  | none => "maximize"

/-- f-string rendering of the `analysis` dict (CPython dict repr in key
insertion order; `\x7b\x7d` when the dict is the empty default). -/
def pyStrAnalysis : Option Analysis → String
  | none => "\x7b\x7d"
  | some a =>
    "\x7b" ++ pyReprStr "problem_type" ++ ": " ++ pyReprStr a.problem_type ++
    ", " ++ pyReprStr "objectives" ++ ": " ++ pyStrList a.objectives ++
    ", " ++ pyReprStr "constraints" ++ ": " ++ pyStrDict a.constraints ++
    ", " ++ pyReprStr "individual_structure" ++ ": " ++
      pyReprStr a.individual_structure ++
    ", " ++ pyReprStr "optimization_direction" ++ ": " ++
      pyReprStr a.optimization_direction ++ "\x7d"

/-! ## Agents (`src/agents/*.py`)

The seven concrete `BaseAgent` subclasses.  The Python class of an agent
object determines its `agent_id`, `agent_type`, `cell_position` and
`get_cell_type()`, so the class is modelled as an enumeration and those
four attributes as functions of it. -/
inductive AgentKind where
  | problem_analyser
  | individuals_modelling
  | fitness_function
  | crossover_function
  | mutation_function
  | selection_strategy
  | code_integration
deriving DecidableEq, Repr

/-- The `agent_id` each subclass passes to `BaseAgent.__init__`. -/
def AgentKind.agentId : AgentKind → String
  | .problem_analyser => "problem_analyser"
  | .individuals_modelling => "individuals_modelling"
  | .fitness_function => "fitness_function"
  | .crossover_function => "crossover_function"
  | .mutation_function => "mutation_function"
  | .selection_strategy => "selection_strategy"
  | .code_integration => "code_integration"

/-- The `agent_type` each subclass passes to `BaseAgent.__init__`. -/
def AgentKind.agentType : AgentKind → String
  | .problem_analyser => "Problem Analyser"
  | .individuals_modelling => "Individuals Modelling"
  | .fitness_function => "Fitness Function"
  | .crossover_function => "Crossover Function"
  | .mutation_function => "Mutation Function"
  | .selection_strategy => "Selection Strategy"
  | .code_integration => "Code Integration and Validation"

/-- The `cell_position` each subclass sets in its `__init__`. -/
def AgentKind.cellPosition : AgentKind → Int
  | .problem_analyser => 1
  | .individuals_modelling => 2
  | .fitness_function => 3
  | .crossover_function => 4
  | .mutation_function => 5
  | .selection_strategy => 6
  | .code_integration => 7

/-- Each subclass's `get_cell_type()`. -/
def AgentKind.cellType : AgentKind → String
  | .problem_analyser => "problem_analysis"
  | .individuals_modelling => "individual_representation"
  | .fitness_function => "fitness"
  | .crossover_function => "crossover"
  | .mutation_function => "mutation"
  | .selection_strategy => "selection"
  | .code_integration => "toolbox_registration"

/-- `BaseAgent.get_system_prompt`. -/
def AgentKind.systemPrompt (k : AgentKind) : String :=
  "You are a " ++ k.agentType ++
  " agent for evolutionary algorithms using DEAP framework."

/-- An inter-agent message (`AgentMessage`).  The source also carries a
`uuid4` id, a timestamp and a metadata dict; none of them is ever read by
the modelled operations and they are omitted.  Every message the repository
sends carries a code string, so `content` is a string. -/
structure AgentMessage where
  from_agent : String
  to_agent : String
  message_type : String
  content : String
deriving DecidableEq, Repr

/-- The mutable state of one agent object (`BaseAgent.__init__`). -/
structure AgentState where
  kind : AgentKind
  messages : List AgentMessage
  context : Ctx
  generated_code : Option String
deriving DecidableEq

/-- A freshly constructed agent object. -/
def mkAgent (k : AgentKind) : AgentState :=
  { kind := k, messages := [], context := [], generated_code := none }

/-- `BaseAgent.receive_message`: append the message, then update the
context.  A `"code_generated"` message stores its content under
`"{from_agent}_code"`.  The `"context_update"` branch merges a mapping in
the source; the repository never sends such a message (and its content
here is a string, on which CPython's `dict.update` would raise), so the
context is left unchanged on that branch. -/
def receive_message (a : AgentState) (m : AgentMessage) : AgentState :=
  let a := { a with messages := a.messages ++ [m] }
  if m.message_type == "code_generated" then
    { a with context := ctxSet a.context (m.from_agent ++ "_code") (.str m.content) }
  else a

/-! ## Generation backend and per-agent `generate_code`

`chatgroq_service.generate_response(prompt, system_prompt, max_tokens)` is
an external black box; an `Oracle` is one possible behaviour of it, with
`Except.error` standing for a raised `GenerationError`. -/
def Oracle := String → String → Nat → Except String String

/-- The f-string prompt of `ProblemAnalyserAgent.generate_code`. -/
def problemAnalyserPrompt (pc : ProblemContext) : String :=
  "\nAnalyze this optimization problem and generate DEAP setup code:\n\nProblem: "
  ++ pc.title ++ "\nDescription: " ++ pc.description ++ "\nType: "
  ++ pc.problem_type ++ "\nObjectives: " ++ pyStrList pc.objectives
  ++ "\nConstraints: " ++ pyStrDict pc.constraints
  ++ "\n\nGenerate Python code that:\n1. Imports necessary DEAP modules\n2. Defines the problem structure\n3. Sets up creator for Individual and Fitness\n4. Documents the problem characteristics\n\nReturn only the Python code with comments.\n"

/-- The f-string prompt of `IndividualsModellingAgent.generate_code`. -/
def individualsModellingPrompt (analysis : Option Analysis) : String :=
  "\nBased on this problem analysis, generate DEAP individual representation code:\n\nProblem Type: "
  ++ analysisProblemType analysis ++ "\nObjectives: "
  ++ pyStrList (analysisObjectives analysis) ++ "\nConstraints: "
  ++ pyStrDict (analysisConstraints analysis)
  ++ "\n\nGenerate Python code that:\n1. Defines individual representation (list, tree, etc.)\n2. Creates initialization function\n3. Registers individual creation in toolbox\n4. Handles problem-specific constraints\n\nFocus on the individual structure and initialization only.\nReturn only the Python code with comments.\n"

/-- The f-string prompt of `FitnessFunctionAgent.generate_code`. -/
def fitnessFunctionPrompt (analysis : Option Analysis)
    (individual_code : String) : String :=
  "\nGenerate a DEAP fitness function based on:\n\nProblem Analysis: "
  ++ pyStrAnalysis analysis ++ "\nIndividual Structure: "
  ++ strTake individual_code 200 ++ "...\n\nObjectives: "
  ++ pyStrList (analysisObjectives analysis) ++ "\nConstraints: "
  ++ pyStrDict (analysisConstraints analysis) ++ "\nOptimization: "
  ++ analysisDirection analysis
  ++ "\n\nGenerate a fitness function that:\n1. Takes an individual as input\n2. Evaluates against the objectives\n3. Handles constraints appropriately\n4. Returns fitness as a tuple\n5. Is DEAP-compatible\n\nReturn only the Python function code with comments.\n"

/-- The f-string prompt of `CrossoverFunctionAgent.generate_code`. -/
def crossoverFunctionPrompt (analysis : Option Analysis)
    (individual_code : String) : String :=
  "\nGenerate a DEAP crossover function based on:\n\nProblem Type: "
  ++ analysisProblemType analysis ++ "\nIndividual Structure: "
  ++ strTake individual_code 200 ++ "...\nConstraints: "
  ++ pyStrDict (analysisConstraints analysis)
  ++ "\n\nGenerate a crossover function that:\n1. Takes two parent individuals\n2. Creates offspring through recombination\n3. Maintains individual structure integrity\n4. Handles problem constraints\n5. Returns modified individuals\n\nReturn only the Python function code with comments.\n"

/-- The f-string prompt of `MutationFunctionAgent.generate_code`. -/
def mutationFunctionPrompt (analysis : Option Analysis)
    (individual_code : String) : String :=
  "\nGenerate a DEAP mutation function based on:\n\nProblem Type: "
  ++ analysisProblemType analysis ++ "\nIndividual Structure: "
  ++ strTake individual_code 200 ++ "...\nConstraints: "
  ++ pyStrDict (analysisConstraints analysis)
  ++ "\n\nGenerate a mutation function that:\n1. Takes an individual as input\n2. Applies random modifications\n3. Maintains solution feasibility\n4. Handles problem constraints\n5. Returns modified individual as tuple\n\nReturn only the Python function code with comments.\n"

/-- The f-string prompt of `SelectionStrategyAgent.generate_code`. -/
def selectionStrategyPrompt (analysis : Option Analysis)
    (fitness_code : String) : String :=
  "\nGenerate a DEAP selection function based on:\n\nProblem Type: "
  ++ analysisProblemType analysis ++ "\nOptimization Direction: "
  ++ analysisDirection analysis ++ "\nFitness Function: "
  ++ strTake fitness_code 200
  ++ "...\n\nGenerate a selection function that:\n1. Takes population and selection size\n2. Selects individuals based on fitness\n3. Uses appropriate selection pressure\n4. Handles the optimization direction correctly\n5. Returns selected individuals\n\nReturn only the Python function code with comments.\n"

/-- The f-string prompt of `CodeIntegrationAgent.generate_code`. -/
def codeIntegrationPrompt (individual_code fitness_code crossover_code
    mutation_code selection_code : String) : String :=
  "\nCreate DEAP toolbox registration code that integrates all the generated functions:\n\nIndividual Code:\n"
  ++ strTake individual_code 300 ++ "...\n\nFitness Code:\n"
  ++ strTake fitness_code 300 ++ "...\n\nCrossover Code:\n"
  ++ strTake crossover_code 300 ++ "...\n\nMutation Code:\n"
  ++ strTake mutation_code 300 ++ "...\n\nSelection Code:\n"
  ++ strTake selection_code 300
  ++ "...\n\nGenerate code that:\n1. Creates DEAP toolbox instance\n2. Registers all the functions properly\n3. Sets up population creation\n4. Adds any missing imports\n5. Provides a complete working toolbox\n\nReturn only the Python code with comments.\n"

/-- The `max_tokens` budget each subclass passes to the backend. -/
def AgentKind.maxTokens : AgentKind → Nat
  | .problem_analyser => 1000
  | .individuals_modelling => 800
  | .fitness_function => 1000
  | .crossover_function => 800
  | .mutation_function => 800
  | .selection_strategy => 800
  | .code_integration => 1200

/-- The prompt each subclass's `generate_code` builds from its own context
and the problem context. -/
def AgentState.prompt (a : AgentState) (pc : ProblemContext) : String :=
  match a.kind with
  | .problem_analyser => problemAnalyserPrompt pc
  | .individuals_modelling =>
      individualsModellingPrompt (ctxGetAnalysis a.context)
  | .fitness_function =>
      fitnessFunctionPrompt (ctxGetAnalysis a.context)
        (ctxGetStr a.context "individuals_modelling_code")
  | .crossover_function =>
      crossoverFunctionPrompt (ctxGetAnalysis a.context)
        (ctxGetStr a.context "individuals_modelling_code")
  | .mutation_function =>
      mutationFunctionPrompt (ctxGetAnalysis a.context)
        (ctxGetStr a.context "individuals_modelling_code")
  | .selection_strategy =>
      selectionStrategyPrompt (ctxGetAnalysis a.context)
        (ctxGetStr a.context "fitness_function_code")
  | .code_integration =>
      codeIntegrationPrompt
        (ctxGetStr a.context "individuals_modelling_code")
        (ctxGetStr a.context "fitness_function_code")
        (ctxGetStr a.context "crossover_function_code")
        (ctxGetStr a.context "mutation_function_code")
        (ctxGetStr a.context "selection_strategy_code")

/-- `generate_code` of the agent's class: build the prompt from the
accumulated context, call the backend with the role-specific budget, store
the result in `self.generated_code` and return it.  The Problem Analyser
additionally writes its derived `analysis` dict into its own context.  A
backend `GenerationError` propagates (the assignments after the call do
not happen). -/
def generate_code (llm : Oracle) (a : AgentState) (pc : ProblemContext) :
    Except String (AgentState × String) :=
  match llm (a.prompt pc) a.kind.systemPrompt a.kind.maxTokens with
  | .error e => .error e
  | .ok code =>
    let a := { a with generated_code := some code }
    let a :=
      match a.kind with
      | .problem_analyser =>
          { a with context :=
              ctxSet a.context "analysis" (.analysis (deriveAnalysis pc)) }
      | _ => a
    .ok (a, code)

/-! ## Coordinator (`src/services/agent_coordinator.py`)

`AgentCoordinator.__init__` builds one fresh agent object per kind; the
dict `self.agents` keyed by agent id is modelled as a function from the
kind (the API layer constructs a fresh coordinator per request, so every
run and every regeneration starts from freshly constructed agents). -/
abbrev Agents := AgentKind → AgentState

/-- The seven freshly constructed agents of `AgentCoordinator.__init__`. -/
def initAgents : Agents := fun k => mkAgent k

/-- Replace one agent object (mutation of `self.agents[agent_id]`). -/
def setAgent (ags : Agents) (k : AgentKind) (a : AgentState) : Agents :=
  fun j => if j = k then a else ags j

/-- `self.execution_flow`: the fixed execution order. -/
def execution_flow : List AgentKind :=
  [.problem_analyser, .individuals_modelling, .fitness_function,
   .crossover_function, .mutation_function, .selection_strategy,
   .code_integration]

/-- One entry of the coordinator's `results` dict. -/
structure AgentResult where
  agent_id : String
  cell_id : Nat
  code : String
  cell_type : String
  success : Bool
deriving DecidableEq, Repr

/-- The state a coordination run threads: the agent objects, the database,
and the `results` dict accumulated so far (a Python dict with distinct
keys in insertion order). -/
structure RunState where
  agents : Agents
  store : CellStore
  results : List (String × AgentResult)

/-- `AgentCoordinator._propagate_context_to_remaining_agents`: send a
`"code_generated"` message with this stage's output to every remaining
agent of the flow. -/
def propagateTo (ags : Agents) (fromK : AgentKind) (code : String) :
    List AgentKind → Agents
  | [] => ags
  | k :: rest =>
    let msg : AgentMessage :=
      { from_agent := fromK.agentId, to_agent := k.agentId,
        message_type := "code_generated", content := code }
    propagateTo (setAgent ags k (receive_message (ags k) msg)) fromK code rest

/-- The body of one iteration of the `coordinate_agents` loop: generate,
persist, record the result entry, broadcast to the remaining agents.
A generation failure is re-raised wrapped as
`"Agent {agent_id} code generation failed: {e}"`; the cell-storage
`try/except` of the source cannot fire here because the modelled store is
total. -/
def execStage (llm : Oracle) (nb : Nat) (pc : ProblemContext)
    (rs : RunState) (k : AgentKind) (remaining : List AgentKind) :
    Except String RunState :=
  match generate_code llm (rs.agents k) pc with
  | .error e =>
    .error ("Agent " ++ k.agentId ++ " code generation failed: " ++ e)
  | .ok (a2, code) =>
    let agents2 := setAgent rs.agents k a2
    let (store2, cellRes) :=
      update_or_create_cell rs.store nb k.cellType code k.agentId k.cellPosition
    let results2 := rs.results ++
      [(k.agentId,
        { agent_id := k.agentId, cell_id := cellRes.cell_id, code := code,
          cell_type := k.cellType, success := true })]
    .ok { agents := propagateTo agents2 k code remaining,
          store := store2, results := results2 }

/-- The `for i, agent_id in enumerate(self.execution_flow)` loop: run the
listed stages in order, stopping at the first failure (whose message is
returned alongside the state reached). -/
def execStages (llm : Oracle) (nb : Nat) (pc : ProblemContext) :
    RunState → List AgentKind → RunState × Option String
  | rs, [] => (rs, none)
  | rs, k :: rest =>
    match execStage llm nb pc rs k rest with
    | .ok rs2 => execStages llm nb pc rs2 rest
    | .error e => (rs, some e)

/-- The structured result `coordinate_agents` returns. -/
structure CoordResult where
  success : Bool
  results : List (String × AgentResult)
  error : Option String
  message : String

/-- The run state at the start of a coordination request: fresh agents,
the current database, an empty `results` dict. -/
def initRunState (store : CellStore) : RunState :=
  { agents := initAgents, store := store, results := [] }

/-- `AgentCoordinator.coordinate_agents`: run all seven stages; on success
return `success = true` with the full results dict, on any stage failure
catch it and return `success = false` with the partial results dict, the
error string, and the failure message. -/
def coordinate_agents (llm : Oracle) (store : CellStore) (nb : Nat)
    (pc : ProblemContext) : RunState × CoordResult :=
  match execStages llm nb pc (initRunState store) execution_flow with
  | (rs, none) =>
    (rs, { success := true, results := rs.results, error := none,
           message := "All agents executed successfully" })
  | (rs, some e) =>
    (rs, { success := false, results := rs.results, error := some e,
           message := "Agent coordination failed: " ++ e })

/-! ## Cell regeneration endpoint (`src/api/agents.py`, `regenerate_cell`)

The notebook-ownership check and HTTP plumbing are out of scope; the
endpoint logic after a successful ownership check is modelled. -/

/-- `valid_cell_types` of `regenerate_cell`. -/
def valid_cell_types : List String :=
  ["problem_analysis", "individual_representation", "fitness",
   "crossover", "mutation", "selection", "toolbox_registration"]

/-- The `cell_to_agent` dict of `regenerate_cell`. -/
def cell_to_agent (ct : String) : Option AgentKind :=
  if ct == "problem_analysis" then some .problem_analyser
  else if ct == "individual_representation" then some .individuals_modelling
  else if ct == "fitness" then some .fitness_function
  else if ct == "crossover" then some .crossover_function
  else if ct == "mutation" then some .mutation_function
  else if ct == "selection" then some .selection_strategy
  else if ct == "toolbox_registration" then some .code_integration
  else none

/-- The context-seeding loop of `regenerate_cell`: for every existing cell
whose type differs from the one being regenerated, store its code under
`"{cell['cell_type']}_code"` in the selected agent's context. -/
def seedAgentContext (a : AgentState) (cells : List CellView) (ct : String) :
    AgentState :=
  let newCtx :=
    cells.foldl
      (fun ctx cell =>
        if cell.cell_type != ct then
          ctxSet ctx (cell.cell_type ++ "_code") (.str cell.code)
        else ctx)
      a.context
  { a with context := newCtx }

/-- The selected agent of a regeneration request, after its context has
been seeded from the notebook's current cells: a freshly constructed agent
(the endpoint builds a new `AgentCoordinator`) seeded by the loop above. -/
def regenSeededAgent (store : CellStore) (nb : Nat) (ct : String)
    (k : AgentKind) : AgentState :=
  seedAgentContext (initAgents k) (get_notebook_cells store nb) ct

/-- The response of the regeneration endpoint: the fields of the success
payload, or the message of an `error_response`. -/
inductive RegenResponse where
  | ok (cell_type : String) (cell_id : Nat) (action : String)
      (version : Nat) (generated_code : String)
  | err (message : String)
deriving DecidableEq, Repr

/-- `regenerate_cell` (after the ownership check): validate the cell type,
select and seed the agent, generate, persist through the same upsert, and
answer.  A `GenerationError` is caught by the endpoint's `except` and
reported as `"Failed to regenerate cell: ..."`.  The `none` branch of
`cell_to_agent` is unreachable for validated cell types. -/
def regenerate_cell (llm : Oracle) (store : CellStore) (nb : Nat)
    (ct : String) (pc : ProblemContext) : CellStore × RegenResponse :=
  if valid_cell_types.contains ct then
    match cell_to_agent ct with
    | none => (store, .err "Failed to regenerate cell: KeyError")
    | some k =>
      match generate_code llm (regenSeededAgent store nb ct k) pc with
      | .error e => (store, .err ("Failed to regenerate cell: " ++ e))
      | .ok (_, code) =>
        let (store2, res) :=
          update_or_create_cell store nb ct code k.agentId k.cellPosition
        (store2, .ok ct res.cell_id res.action res.version code)
  else
    (store,
     .err ("Invalid cell type. Must be one of: " ++ pyStrList valid_cell_types))

/-! ## Store invariants and upsert lemmas -/

/-- Store sanity: every row id is below the fresh-id counter (so freshly
created ids collide with nothing) and row ids are pairwise distinct.  Both
hold for the empty store and are preserved by every write. -/
def StoreWF (s : CellStore) : Prop :=
  (∀ c ∈ s.rows, c.id < s.nextId) ∧
  s.rows.Pairwise fun a b => a.id ≠ b.id

lemma storeWF_empty : StoreWF emptyStore := by
  constructor
  · intro c hc; cases hc
  · exact List.Pairwise.nil

lemma find?_of_pairwise_ids {rows : List Cell} {c : Cell}
    (hp : rows.Pairwise fun a b => a.id ≠ b.id) (hmem : c ∈ rows) :
    (rows.find? fun r => r.id == c.id) = some c := by
  induction rows with
  | nil => cases hmem
  | cons r rest ih =>
    rcases List.mem_cons.mp hmem with rfl | hmem'
    · simp [List.find?]
    · have hne : r.id ≠ c.id := (List.pairwise_cons.mp hp).1 c hmem'
      have : (r.id == c.id) = false := by simpa using hne
      simp [List.find?, this]
      exact ih (List.pairwise_cons.mp hp).2 hmem'

lemma filter_map_comm (f : Cell → Cell) (p : Cell → Bool)
    (h : ∀ a, p (f a) = p a) :
    ∀ l : List Cell, (l.map f).filter p = (l.filter p).map f := by
  intro l
  induction l with
  | nil => rfl
  | cons a t ih =>
    by_cases hp : p a
    · simp [List.filter_cons, h a, hp, ih]
    · simp [List.filter_cons, h a, hp, ih]

/-- The row filter of `activeCellsOf`. -/
def activePred (nb : Nat) (ct : String) (c : Cell) : Bool :=
  c.notebook_id == nb && c.cell_type == ct && c.is_active

lemma activeCellsOf_eq_filter (s : CellStore) (nb : Nat) (ct : String) :
    activeCellsOf s nb ct = s.rows.filter (activePred nb ct) := rfl

/-- On a pair with no active row, the upsert takes the create branch. -/
lemma upsert_of_empty (s : CellStore) (nb : Nat) (ct code aid : String)
    (pos : Int) (h0 : activeCellsOf s nb ct = []) :
    update_or_create_cell s nb ct code aid pos = createCell s nb ct code aid pos := by
  unfold update_or_create_cell getCellByType
  rw [h0]
  rfl

/-- On a pair with exactly one active row, the upsert takes the update
branch on that row's id. -/
lemma upsert_of_one (s : CellStore) (nb : Nat) (ct code aid : String)
    (pos : Int) (c : Cell) (h1 : activeCellsOf s nb ct = [c]) :
    update_or_create_cell s nb ct code aid pos = updateCell s c.id code aid := by
  unfold update_or_create_cell getCellByType
  rw [h1]
  rfl

lemma activePred_true (nb : Nat) (ct : String) (c : Cell)
    (h1 : c.notebook_id = nb) (h2 : c.cell_type = ct) (h3 : c.is_active = true) :
    activePred nb ct c = true := by
  simp [activePred, h1, h2, h3]

lemma createCell_active (s : CellStore) (nb : Nat) (ct code aid : String)
    (pos : Int) (h0 : activeCellsOf s nb ct = []) :
    activeCellsOf (createCell s nb ct code aid pos).1 nb ct
      = [⟨s.nextId, nb, ct, code, aid, 1, pos, true, s.now, s.now⟩] := by
  rw [activeCellsOf_eq_filter] at h0 ⊢
  unfold createCell
  simp only [List.filter_append, h0, List.nil_append]
  simp [activePred]

lemma createCell_wf (s : CellStore) (nb : Nat) (ct code aid : String)
    (pos : Int) (hwf : StoreWF s) :
    StoreWF (createCell s nb ct code aid pos).1 := by
  obtain ⟨hbound, hpair⟩ := hwf
  constructor
  · intro c hc
    simp only [createCell, List.mem_append, List.mem_singleton] at hc
    rcases hc with hc | rfl
    · exact Nat.lt_trans (hbound c hc) (Nat.lt_succ_self _)
    · exact Nat.lt_succ_self _
  · show (s.rows ++ [_]).Pairwise _
    rw [List.pairwise_append]
    refine ⟨hpair, List.pairwise_singleton _ _, ?_⟩
    intro a ha b hb
    rw [List.mem_singleton] at hb
    subst hb
    exact Nat.ne_of_lt (hbound a ha)

/-- The per-row effect of the `_update_cell` UPDATE statement. -/
def updRow (code aid : String) (v t : Nat) (r : Cell) : Cell :=
  { r with code := code, agent_id := aid, version := v, updated_at := t }

lemma updateCell_of_mem (s : CellStore) (c : Cell) (code aid : String)
    (hwf : StoreWF s) (hmem : c ∈ s.rows) :
    updateCell s c.id code aid =
      ({ rows := s.rows.map fun r =>
           if r.id == c.id then updRow code aid (c.version + 1) s.now r else r,
         nextId := s.nextId, now := s.now + 1 },
       { cell_id := c.id, version := c.version + 1, action := "updated" }) := by
  unfold updateCell updRow
  rw [find?_of_pairwise_ids hwf.2 hmem]
  rfl

lemma mem_of_active_one {s : CellStore} {nb : Nat} {ct : String} {c : Cell}
    (h1 : activeCellsOf s nb ct = [c]) : c ∈ s.rows := by
  have : c ∈ activeCellsOf s nb ct := by rw [h1]; exact List.mem_singleton_self c
  exact List.mem_of_mem_filter this

lemma activeCells_updateCell (s : CellStore) (nb : Nat) (ct : String)
    (c : Cell) (code aid : String)
    (hwf : StoreWF s) (h1 : activeCellsOf s nb ct = [c]) :
    activeCellsOf (updateCell s c.id code aid).1 nb ct
      = [updRow code aid (c.version + 1) s.now c] := by
  have hmem := mem_of_active_one h1
  rw [updateCell_of_mem s c code aid hwf hmem]
  rw [activeCellsOf_eq_filter] at h1 ⊢
  have hcomm := filter_map_comm
    (fun r => if r.id == c.id then updRow code aid (c.version + 1) s.now r else r)
    (activePred nb ct)
    (by intro a; by_cases h : a.id == c.id <;> simp [h, activePred, updRow])
    s.rows
  simp only [hcomm, h1, List.map_singleton]
  simp

lemma updateCell_wf (s : CellStore) (c : Cell) (code aid : String)
    (hwf : StoreWF s) (hmem : c ∈ s.rows) :
    StoreWF (updateCell s c.id code aid).1 := by
  rw [updateCell_of_mem s c code aid hwf hmem]
  obtain ⟨hbound, hpair⟩ := hwf
  have hid : ∀ r : Cell,
      (if r.id == c.id then updRow code aid (c.version + 1) s.now r else r).id
        = r.id := by
    intro r; by_cases h : r.id == c.id <;> simp [h, updRow]
  constructor
  · intro x hx
    rw [List.mem_map] at hx
    obtain ⟨r, hr, rfl⟩ := hx
    rw [hid r]
    exact hbound r hr
  · rw [List.pairwise_map]
    refine hpair.imp ?_
    intro a b hab
    rw [hid a, hid b]
    exact hab

lemma upsert_one_step (s : CellStore) (nb : Nat) (ct code aid : String)
    (pos : Int) (c : Cell)
    (hwf : StoreWF s) (h1 : activeCellsOf s nb ct = [c]) :
    (update_or_create_cell s nb ct code aid pos).2
        = ⟨c.id, c.version + 1, "updated"⟩
    ∧ activeCellsOf (update_or_create_cell s nb ct code aid pos).1 nb ct
        = [updRow code aid (c.version + 1) s.now c]
    ∧ StoreWF (update_or_create_cell s nb ct code aid pos).1 := by
  have hmem := mem_of_active_one h1
  rw [upsert_of_one s nb ct code aid pos c h1]
  refine ⟨?_, activeCells_updateCell s nb ct c code aid hwf h1,
          updateCell_wf s c code aid hwf hmem⟩
  rw [updateCell_of_mem s c code aid hwf hmem]

lemma upsert_empty_step (s : CellStore) (nb : Nat) (ct code aid : String)
    (pos : Int) (hwf : StoreWF s) (h0 : activeCellsOf s nb ct = []) :
    (update_or_create_cell s nb ct code aid pos).2 = ⟨s.nextId, 1, "created"⟩
    ∧ activeCellsOf (update_or_create_cell s nb ct code aid pos).1 nb ct
        = [⟨s.nextId, nb, ct, code, aid, 1, pos, true, s.now, s.now⟩]
    ∧ StoreWF (update_or_create_cell s nb ct code aid pos).1 := by
  rw [upsert_of_empty s nb ct code aid pos h0]
  exact ⟨rfl, createCell_active s nb ct code aid pos h0,
         createCell_wf s nb ct code aid pos hwf⟩

/-- A sequence of sequential `update_or_create_cell` calls against one
`(notebook_id, cell_type)` pair, each with its `(code, agent_id, position)`
payload, returning the final store and all results in call order. -/
def upsertSeq (nb : Nat) (ct : String) (s : CellStore) :
    List (String × String × Int) → CellStore × List UpsertResult
  | [] => (s, [])
  | p :: rest =>
    let step := update_or_create_cell s nb ct p.1 p.2.1 p.2.2
    let tail := upsertSeq nb ct step.1 rest
    (tail.1, step.2 :: tail.2)

lemma upsertSeq_from_one (nb : Nat) (ct : String) :
    ∀ (ps : List (String × String × Int)) (s : CellStore) (c : Cell),
      StoreWF s → activeCellsOf s nb ct = [c] →
      ((upsertSeq nb ct s ps).2.map UpsertResult.version
          = List.range' (c.version + 1) ps.length)
      ∧ ((upsertSeq nb ct s ps).2.map UpsertResult.action
          = List.replicate ps.length "updated")
      ∧ (∀ i, (activeCellsOf (upsertSeq nb ct s (ps.take i)).1 nb ct).length = 1)
      ∧ StoreWF (upsertSeq nb ct s ps).1 := by
  intro ps
  induction ps with
  | nil =>
    intro s c hwf h1
    refine ⟨rfl, rfl, ?_, hwf⟩
    intro i
    simp [upsertSeq, h1]
  | cons p rest ih =>
    intro s c hwf h1
    obtain ⟨hres, hact, hwf2⟩ :=
      upsert_one_step s nb ct p.1 p.2.1 p.2.2 c hwf h1
    set s2 := (update_or_create_cell s nb ct p.1 p.2.1 p.2.2).1 with hs2
    have hver : (updRow p.1 p.2.1 (c.version + 1) s.now c).version
        = c.version + 1 := rfl
    obtain ⟨ihv, iha, ihone, ihwf⟩ :=
      ih s2 (updRow p.1 p.2.1 (c.version + 1) s.now c) hwf2 hact
    refine ⟨?_, ?_, ?_, ?_⟩
    · simp only [upsertSeq, List.map_cons, hres, ihv, hver, List.length_cons]
      rfl
    · simp only [upsertSeq, List.map_cons, hres, iha, List.length_cons]
      rfl
    · intro i
      cases i with
      | zero => simp [upsertSeq, h1]
      | succ j =>
        simp only [List.take_succ_cons, upsertSeq]
        exact ihone j
    · simpa [upsertSeq] using ihwf

/-- C1 core lemma: starting from a store with no active cell for the pair,
N sequential upserts return versions `1..N`, action `"created"` then
`"updated"`s, and keep exactly one active row for the pair after every
call. -/
lemma upsertSeq_from_empty (nb : Nat) (ct : String)
    (ps : List (String × String × Int)) (s : CellStore)
    (hwf : StoreWF s) (h0 : activeCellsOf s nb ct = []) (hne : ps ≠ []) :
    ((upsertSeq nb ct s ps).2.map UpsertResult.version
        = List.range' 1 ps.length)
    ∧ ((upsertSeq nb ct s ps).2.map UpsertResult.action
        = "created" :: List.replicate (ps.length - 1) "updated")
    ∧ (∀ i, 1 ≤ i →
        (activeCellsOf (upsertSeq nb ct s (ps.take i)).1 nb ct).length = 1) := by
  match ps, hne with
  | p :: rest, _ =>
    obtain ⟨hres, hact, hwf2⟩ :=
      upsert_empty_step s nb ct p.1 p.2.1 p.2.2 hwf h0
    set s2 := (update_or_create_cell s nb ct p.1 p.2.1 p.2.2).1 with hs2
    obtain ⟨ihv, iha, ihone, _⟩ :=
      upsertSeq_from_one nb ct rest s2
        ⟨s.nextId, nb, ct, p.1, p.2.1, 1, p.2.2, true, s.now, s.now⟩ hwf2 hact
    refine ⟨?_, ?_, ?_⟩
    · simp only [upsertSeq, List.map_cons, hres, ihv, List.length_cons]
      rfl
    · simp only [upsertSeq, List.map_cons, hres, iha, List.length_cons]
      rfl
    · intro i hi
      match i, hi with
      | Nat.succ j, _ =>
        simp only [List.take_succ_cons, upsertSeq]
        exact ihone j

/-- C1: for every notebook and cell type, a sequence of N sequential
`update_or_create_cell` calls starting from a well-formed store with no
active cell for the pair yields result versions `1, 2, ..., N` in order,
with action `"created"` exactly on the first call and `"updated"` on every
subsequent one, and after every call there is exactly one active cell row
for the `(notebook_id, cell_type)` pair. -/
theorem upsert_versioning_monotonicity (s : CellStore) (nb : Nat)
    (ct : String) (ps : List (String × String × Int))
    (hwf : StoreWF s) (h0 : activeCellsOf s nb ct = []) (hne : ps ≠ []) :
    ((upsertSeq nb ct s ps).2.map UpsertResult.version
        = List.range' 1 ps.length)
    ∧ ((upsertSeq nb ct s ps).2.map UpsertResult.action
        = "created" :: List.replicate (ps.length - 1) "updated")
    ∧ (∀ i, 1 ≤ i →
        (activeCellsOf (upsertSeq nb ct s (ps.take i)).1 nb ct).length = 1) :=
  upsertSeq_from_empty nb ct ps s hwf h0 hne

/-- C1 witness: three concrete upserts on a fresh store for notebook 1 and
cell type `"fitness"` produce versions `[1, 2, 3]`, actions
`["created", "updated", "updated"]`, and one active row after each call. -/
theorem upsert_versioning_monotonicity_witness :
    ((upsertSeq 1 "fitness" emptyStore
        [("a", "x", 1), ("b", "y", 1), ("c", "z", 1)]).2.map
          UpsertResult.version = List.range' 1 3)
    ∧ ((upsertSeq 1 "fitness" emptyStore
        [("a", "x", 1), ("b", "y", 1), ("c", "z", 1)]).2.map
          UpsertResult.action = "created" :: List.replicate 2 "updated")
    ∧ (∀ i, 1 ≤ i →
        (activeCellsOf (upsertSeq 1 "fitness" emptyStore
          ([("a", "x", 1), ("b", "y", 1), ("c", "z", 1)].take i)).1
            1 "fitness").length = 1) :=
  upsert_versioning_monotonicity emptyStore 1 "fitness"
    [("a", "x", 1), ("b", "y", 1), ("c", "z", 1)]
    storeWF_empty rfl (by decide)

/-- C9: on the `"updated"` branch of `update_or_create_cell` the caller's
`position` argument is ignored (the outcome is the same for any two
positions), the action is `"updated"`, and every row keeps its `id`,
`notebook_id`, `cell_type`, `position`, `is_active` and `created_at`;
rows other than the updated one are untouched, and the updated one gets
the new `code`, `agent_id` and `updated_at`. -/
theorem upsert_updated_frame (s : CellStore) (nb : Nat) (ct code aid : String)
    (pos pos2 : Int) (ex : Cell)
    (hex : getCellByType s nb ct = some ex) :
    (update_or_create_cell s nb ct code aid pos
        = update_or_create_cell s nb ct code aid pos2)
    ∧ (update_or_create_cell s nb ct code aid pos).2.action = "updated"
    ∧ (∀ r2 ∈ (update_or_create_cell s nb ct code aid pos).1.rows,
        ∃ r ∈ s.rows,
          r2.id = r.id ∧ r2.notebook_id = r.notebook_id
          ∧ r2.cell_type = r.cell_type ∧ r2.position = r.position
          ∧ r2.is_active = r.is_active ∧ r2.created_at = r.created_at
          ∧ ((r.id = ex.id) = false → r2 = r)
          ∧ (r.id = ex.id →
              r2.code = code ∧ r2.agent_id = aid ∧ r2.updated_at = s.now)) := by
  have hred : update_or_create_cell s nb ct code aid pos
      = updateCell s ex.id code aid := by
    unfold update_or_create_cell
    rw [hex]
  have hred2 : update_or_create_cell s nb ct code aid pos2
      = updateCell s ex.id code aid := by
    unfold update_or_create_cell
    rw [hex]
  refine ⟨hred.trans hred2.symm, ?_, ?_⟩
  · rw [hred]
    rfl
  · rw [hred]
    intro r2 hr2
    unfold updateCell at hr2
    simp only [List.mem_map] at hr2
    obtain ⟨r, hr, rfl⟩ := hr2
    refine ⟨r, hr, ?_⟩
    by_cases h : r.id = ex.id
    · simp [h]
    · have hb : (r.id == ex.id) = false := by simpa using h
      simp [h, hb]

/-- C9 witness: with one active `"fitness"` row in the store, the upsert
at positions 5 and 9 coincides, reports `"updated"`, and preserves the
frame fields of the stored row. -/
theorem upsert_updated_frame_witness :
    (update_or_create_cell
        ⟨[⟨0, 1, "fitness", "a", "x", 1, 3, true, 0, 0⟩], 1, 1⟩
        1 "fitness" "b" "y" 5
      = update_or_create_cell
        ⟨[⟨0, 1, "fitness", "a", "x", 1, 3, true, 0, 0⟩], 1, 1⟩
        1 "fitness" "b" "y" 9)
    ∧ (update_or_create_cell
        ⟨[⟨0, 1, "fitness", "a", "x", 1, 3, true, 0, 0⟩], 1, 1⟩
        1 "fitness" "b" "y" 5).2.action = "updated"
    ∧ (∀ r2 ∈ (update_or_create_cell
        ⟨[⟨0, 1, "fitness", "a", "x", 1, 3, true, 0, 0⟩], 1, 1⟩
        1 "fitness" "b" "y" 5).1.rows,
        ∃ r ∈ [(⟨0, 1, "fitness", "a", "x", 1, 3, true, 0, 0⟩ : Cell)],
          r2.id = r.id ∧ r2.notebook_id = r.notebook_id
          ∧ r2.cell_type = r.cell_type ∧ r2.position = r.position
          ∧ r2.is_active = r.is_active ∧ r2.created_at = r.created_at
          ∧ ((r.id = (0 : Nat)) = false → r2 = r)
          ∧ (r.id = (0 : Nat) →
              r2.code = "b" ∧ r2.agent_id = "y" ∧ r2.updated_at = 1)) :=
  upsert_updated_frame
    ⟨[⟨0, 1, "fitness", "a", "x", 1, 3, true, 0, 0⟩], 1, 1⟩
    1 "fitness" "b" "y" 5 9
    ⟨0, 1, "fitness", "a", "x", 1, 3, true, 0, 0⟩
    (by decide)

/-- The `position`-then-`created_at` order on listed cell dicts. -/
def viewOrder (a b : CellView) : Prop :=
  a.position < b.position ∨ (a.position = b.position ∧ a.created_at ≤ b.created_at)

/-- C8: reading the active cells of a notebook twice with no intervening
writes returns identical output (a read leaves the store untouched in this
embedding, mirroring a side-effect-free SELECT), and that output is the
active rows of the notebook ordered by `position` then `created_at`
ascending. -/
theorem list_active_idempotent_read (s : CellStore) (nb : Nat) :
    (get_notebook_cells s nb = get_notebook_cells s nb)
    ∧ List.Sorted viewOrder (get_notebook_cells s nb)
    ∧ (get_notebook_cells s nb).Perm
        ((notebookActiveRows s nb).map Cell.toView) := by
  refine ⟨rfl, ?_, ?_⟩
  · have hs := List.sorted_insertionSort positionCreatedLe
      (notebookActiveRows s nb)
    exact hs.map _ fun a b hab => hab
  · exact (List.perm_insertionSort positionCreatedLe
      (notebookActiveRows s nb)).map Cell.toView

lemma insertionSort_unique_of_distinct_pos {l1 l2 : List Cell}
    (hperm : l1.Perm l2)
    (hdist : l1.Pairwise fun a b => a.position ≠ b.position) :
    List.insertionSort positionCreatedLe l1
      = List.insertionSort positionCreatedLe l2 := by
  have hsymm : ∀ {x y : Cell},
      x.position ≠ y.position → y.position ≠ x.position :=
    fun h => h.symm
  have hd1 : (List.insertionSort positionCreatedLe l1).Pairwise
      fun a b => a.position ≠ b.position :=
    ((List.perm_insertionSort positionCreatedLe l1).pairwise_iff hsymm).mpr hdist
  have hd2 : (List.insertionSort positionCreatedLe l2).Pairwise
      fun a b => a.position ≠ b.position :=
    ((List.perm_insertionSort positionCreatedLe l2).pairwise_iff hsymm).mpr
      ((hperm.pairwise_iff hsymm).mp hdist)
  have hstrict : ∀ l : List Cell,
      List.Sorted positionCreatedLe l →
      (l.Pairwise fun a b => a.position ≠ b.position) →
      l.Pairwise fun a b : Cell => a.position < b.position := by
    intro l hs hd
    refine (hs.and hd).imp ?_
    rintro a b ⟨hle | ⟨heq, _⟩, hne⟩
    · exact hle
    · exact absurd heq hne
  haveI : IsAntisymm Cell fun a b : Cell => a.position < b.position :=
    ⟨fun _ _ h1 h2 => (lt_asymm h1 h2).elim⟩
  exact List.eq_of_perm_of_sorted
    (((List.perm_insertionSort positionCreatedLe l1).trans hperm).trans
      (List.perm_insertionSort positionCreatedLe l2).symm)
    (hstrict _ (List.sorted_insertionSort positionCreatedLe l1) hd1)
    (hstrict _ (List.sorted_insertionSort positionCreatedLe l2) hd2)

/-- C6: the concatenated program view is a pure function of the notebook's
active rows: on a notebook with no active cells it is the single
placeholder comment; with active cells of pairwise distinct positions it
is insertion-order independent (any store holding the same rows in any
order gives the same string) and consists of the banner followed by one
block per cell in ascending `position` order, each block being the
`cell_type`/`agent_id` header comment, a dash rule, the cell's code
verbatim, and a separating blank line. -/
theorem complete_code_deterministic (s1 s2 : CellStore) (nb : Nat)
    (hperm : (notebookActiveRows s1 nb).Perm (notebookActiveRows s2 nb))
    (hdist : (notebookActiveRows s1 nb).Pairwise
      fun a b => a.position ≠ b.position) :
    (get_complete_notebook_code s1 nb = get_complete_notebook_code s2 nb)
    ∧ (notebookActiveRows s1 nb = [] →
        get_complete_notebook_code s1 nb = "# No code generated yet")
    ∧ (notebookActiveRows s1 nb ≠ [] →
        ((get_notebook_cells s1 nb).Pairwise
            fun a b : CellView => a.position < b.position)
        ∧ get_complete_notebook_code s1 nb =
            String.intercalate "\n"
              (["# Complete DEAP Algorithm Generated by Multi-Agent System",
                "# " ++ strRepeat (Char.ofNat 61) 60,
                ""] ++ (get_notebook_cells s1 nb).flatMap cellBlock)) := by
  have hcells : get_notebook_cells s1 nb = get_notebook_cells s2 nb := by
    unfold get_notebook_cells
    rw [insertionSort_unique_of_distinct_pos hperm hdist]
  refine ⟨?_, ?_, ?_⟩
  · unfold get_complete_notebook_code
    rw [hcells]
  · intro h0
    unfold get_complete_notebook_code get_notebook_cells
    rw [h0]
    rfl
  · intro hne
    constructor
    · have hsymm : ∀ {x y : Cell},
          x.position ≠ y.position → y.position ≠ x.position :=
        fun h => h.symm
      have hd1 : (List.insertionSort positionCreatedLe
          (notebookActiveRows s1 nb)).Pairwise
          fun a b => a.position ≠ b.position :=
        ((List.perm_insertionSort positionCreatedLe _).pairwise_iff hsymm).mpr
          hdist
      have hs1 := List.sorted_insertionSort positionCreatedLe
        (notebookActiveRows s1 nb)
      have hstrict : (List.insertionSort positionCreatedLe
          (notebookActiveRows s1 nb)).Pairwise
          fun a b : Cell => a.position < b.position := by
        refine (hs1.and hd1).imp ?_
        rintro a b ⟨hle | ⟨heq, _⟩, hne2⟩
        · exact hle
        · exact absurd heq hne2
      unfold get_notebook_cells
      rw [List.pairwise_map]
      exact hstrict.imp fun {a b} h => h
    · have hne2 : ¬(get_notebook_cells s1 nb).isEmpty := by
        unfold get_notebook_cells
        intro hemp
        rw [List.isEmpty_iff, List.map_eq_nil_iff] at hemp
        exact hne (((List.perm_insertionSort positionCreatedLe
          (notebookActiveRows s1 nb)).symm.trans (hemp ▸ List.Perm.refl [])).eq_nil)
      unfold get_complete_notebook_code
      rw [if_neg hne2]

/-- C6 witness: two stores holding the same three active cells (distinct
positions 1, 2, 3) in different insertion orders. -/
theorem complete_code_deterministic_witness :
    (get_complete_notebook_code
        ⟨[⟨0, 1, "fitness", "f", "x", 1, 2, true, 0, 0⟩,
          ⟨1, 1, "problem_analysis", "p", "y", 1, 1, true, 1, 1⟩,
          ⟨2, 1, "crossover", "c", "z", 1, 3, true, 2, 2⟩], 3, 3⟩ 1
      = get_complete_notebook_code
        ⟨[⟨1, 1, "problem_analysis", "p", "y", 1, 1, true, 1, 1⟩,
          ⟨2, 1, "crossover", "c", "z", 1, 3, true, 2, 2⟩,
          ⟨0, 1, "fitness", "f", "x", 1, 2, true, 0, 0⟩], 3, 3⟩ 1)
    ∧ (notebookActiveRows
        ⟨[⟨0, 1, "fitness", "f", "x", 1, 2, true, 0, 0⟩,
          ⟨1, 1, "problem_analysis", "p", "y", 1, 1, true, 1, 1⟩,
          ⟨2, 1, "crossover", "c", "z", 1, 3, true, 2, 2⟩], 3, 3⟩ 1 = [] →
        get_complete_notebook_code
        ⟨[⟨0, 1, "fitness", "f", "x", 1, 2, true, 0, 0⟩,
          ⟨1, 1, "problem_analysis", "p", "y", 1, 1, true, 1, 1⟩,
          ⟨2, 1, "crossover", "c", "z", 1, 3, true, 2, 2⟩], 3, 3⟩ 1
          = "# No code generated yet")
    ∧ (notebookActiveRows
        ⟨[⟨0, 1, "fitness", "f", "x", 1, 2, true, 0, 0⟩,
          ⟨1, 1, "problem_analysis", "p", "y", 1, 1, true, 1, 1⟩,
          ⟨2, 1, "crossover", "c", "z", 1, 3, true, 2, 2⟩], 3, 3⟩ 1 ≠ [] →
        ((get_notebook_cells
          ⟨[⟨0, 1, "fitness", "f", "x", 1, 2, true, 0, 0⟩,
            ⟨1, 1, "problem_analysis", "p", "y", 1, 1, true, 1, 1⟩,
            ⟨2, 1, "crossover", "c", "z", 1, 3, true, 2, 2⟩], 3, 3⟩ 1).Pairwise
            fun a b : CellView => a.position < b.position)
        ∧ get_complete_notebook_code
            ⟨[⟨0, 1, "fitness", "f", "x", 1, 2, true, 0, 0⟩,
              ⟨1, 1, "problem_analysis", "p", "y", 1, 1, true, 1, 1⟩,
              ⟨2, 1, "crossover", "c", "z", 1, 3, true, 2, 2⟩], 3, 3⟩ 1 =
            String.intercalate "\n"
              (["# Complete DEAP Algorithm Generated by Multi-Agent System",
                "# " ++ strRepeat (Char.ofNat 61) 60,
                ""] ++ (get_notebook_cells
            ⟨[⟨0, 1, "fitness", "f", "x", 1, 2, true, 0, 0⟩,
              ⟨1, 1, "problem_analysis", "p", "y", 1, 1, true, 1, 1⟩,
              ⟨2, 1, "crossover", "c", "z", 1, 3, true, 2, 2⟩], 3, 3⟩ 1).flatMap
                cellBlock)) :=
  complete_code_deterministic
    ⟨[⟨0, 1, "fitness", "f", "x", 1, 2, true, 0, 0⟩,
      ⟨1, 1, "problem_analysis", "p", "y", 1, 1, true, 1, 1⟩,
      ⟨2, 1, "crossover", "c", "z", 1, 3, true, 2, 2⟩], 3, 3⟩
    ⟨[⟨1, 1, "problem_analysis", "p", "y", 1, 1, true, 1, 1⟩,
      ⟨2, 1, "crossover", "c", "z", 1, 3, true, 2, 2⟩,
      ⟨0, 1, "fitness", "f", "x", 1, 2, true, 0, 0⟩], 3, 3⟩
    1 (by decide) (by decide)

/-- The derived-direction rule exactly as the specification words it, for
comparison with the source: `"maximize"` when the literal substring
`"maximize"` appears in the string form of the objectives list (no case
folding), else `"minimize"`. -/
def specLiteralDirection (objectives : List String) : String :=
  if strHasSub (pyStrList objectives) "maximize" then "maximize"
  else "minimize"

/-- C5 counterexample: for objectives `["Maximize total coverage"]` the
literal-substring rule of the claim answers `"minimize"` (the string form
contains `"Maximize"`, not the literal `"maximize"`), yet the code derives
`"maximize"` because it lowercases the string form first — so the claim as
stated disagrees with the code at this input, an input the claim itself
asserts yields `"maximize"`. -/
theorem derived_direction_literal_counterexample :
    specLiteralDirection ["Maximize total coverage"] = "minimize"
    ∧ (deriveAnalysis
        ⟨"t", "d", "optimization", ["Maximize total coverage"], []⟩
      ).optimization_direction = "maximize"
    ∧ strHasSub (pyStrList ["Maximize total coverage"]) "maximize" = false := by
  refine ⟨?_, ?_, ?_⟩ <;> decide

/-- C5 amended: `optimization_direction` is `"maximize"` exactly when
`"maximize"` occurs case-insensitively in the string form of the
objectives list (the code lowercases `str(objectives)` before the substring
test); `individual_structure` is always `"list"`; in particular
`["Maximize total coverage"]` yields `"maximize"` and `["minimize_cost"]`
yields `"minimize"`. -/
theorem derived_direction_case_insensitive (pc : ProblemContext) :
    ((deriveAnalysis pc).optimization_direction = "maximize"
      ↔ strHasSub (strLower (pyStrList pc.objectives)) "maximize" = true)
    ∧ (deriveAnalysis pc).individual_structure = "list"
    ∧ (deriveAnalysis
        ⟨"t", "d", "optimization", ["Maximize total coverage"], []⟩
      ).optimization_direction = "maximize"
    ∧ (deriveAnalysis
        ⟨"t", "d", "optimization", ["minimize_cost"], []⟩
      ).optimization_direction = "minimize" := by
  refine ⟨?_, rfl, by decide, by decide⟩
  unfold deriveAnalysis
  by_cases h : strHasSub (strLower (pyStrList pc.objectives)) "maximize" = true
  · simp [h]
  · simp only [Bool.not_eq_true] at h
    simp [h]

/-- C7: a regeneration request naming a `cell_type` outside the fixed
seven-element enumeration is answered with the invalid-cell-type error,
the store is returned unchanged (no cell write), and the outcome does not
depend on the generation backend (no agent's `generate_code` runs: the
right-hand side mentions no oracle). -/
theorem regenerate_invalid_cell_type (llm : Oracle) (store : CellStore)
    (nb : Nat) (ct : String) (pc : ProblemContext)
    (hinv : valid_cell_types.contains ct = false) :
    regenerate_cell llm store nb ct pc
      = (store,
         .err ("Invalid cell type. Must be one of: "
           ++ pyStrList valid_cell_types)) := by
  have hmem : ct ∉ valid_cell_types := by simpa using hinv
  simp [regenerate_cell, hmem]

/-- C7 witness: the cell type `"banana"` is rejected with the store
untouched, for an arbitrary concrete oracle. -/
theorem regenerate_invalid_cell_type_witness :
    regenerate_cell (fun _ _ _ => Except.ok "X") emptyStore 1 "banana"
        ⟨"t", "d", "optimization", [], []⟩
      = (emptyStore,
         .err ("Invalid cell type. Must be one of: "
           ++ pyStrList valid_cell_types)) :=
  regenerate_invalid_cell_type (fun _ _ _ => Except.ok "X") emptyStore 1
    "banana" ⟨"t", "d", "optimization", [], []⟩ (by decide)

/-! ## Coordinator run lemmas -/

/-- The run state in which the stage `i` positions further down the given
stage list starts generating: thread `execStage` through the first `i`
stages; `none` when a stage failed (or the list ran out) first. -/
def stateBeforeStage (llm : Oracle) (nb : Nat) (pc : ProblemContext) :
    RunState → List AgentKind → Nat → Option RunState
  | rs, _, 0 => some rs
  | _, [], _ + 1 => none
  | rs, k :: rest, i + 1 =>
    match execStage llm nb pc rs k rest with
    | .ok rs2 => stateBeforeStage llm nb pc rs2 rest i
    | .error _ => none

/-- An agent's accumulated broadcast context, as a function of the
coordinator's results dict: one `"{agent_id}_code"` entry per completed
stage, in completion order. -/
def ctxOfResults (results : List (String × AgentResult)) : Ctx :=
  results.map fun pr => (pr.1 ++ "_code", CtxVal.str pr.2.code)

lemma setAgent_same (ags : Agents) (k : AgentKind) (a : AgentState) :
    setAgent ags k a k = a := by
  simp [setAgent]

lemma setAgent_other (ags : Agents) (k : AgentKind) (a : AgentState)
    (j : AgentKind) (h : j ≠ k) : setAgent ags k a j = ags j := by
  simp [setAgent, h]

lemma propagateTo_not_mem (fromK : AgentKind) (code : String) :
    ∀ (targets : List AgentKind) (ags : Agents) (j : AgentKind),
      j ∉ targets → propagateTo ags fromK code targets j = ags j := by
  intro targets
  induction targets with
  | nil => intro ags j _; rfl
  | cons t rest ih =>
    intro ags j hj
    have hjt : j ≠ t := fun h => hj (h ▸ List.mem_cons_self t rest)
    have hjr : j ∉ rest := fun h => hj (List.mem_cons_of_mem t h)
    simp only [propagateTo]
    rw [ih _ j hjr, setAgent_other _ _ _ _ hjt]

lemma propagateTo_mem (fromK : AgentKind) (code : String) :
    ∀ (targets : List AgentKind) (ags : Agents) (j : AgentKind),
      j ∈ targets → targets.Nodup →
      propagateTo ags fromK code targets j
        = receive_message (ags j)
            { from_agent := fromK.agentId, to_agent := j.agentId,
              message_type := "code_generated", content := code } := by
  intro targets
  induction targets with
  | nil => intro ags j hj _; cases hj
  | cons t rest ih =>
    intro ags j hj hnd
    rcases List.mem_cons.mp hj with rfl | hjr
    · have hnr : j ∉ rest := (List.nodup_cons.mp hnd).1
      simp only [propagateTo]
      rw [propagateTo_not_mem _ _ _ _ _ hnr, setAgent_same]
    · have hjt : j ≠ t := by
        intro h
        exact (List.nodup_cons.mp hnd).1 (h ▸ hjr)
      simp only [propagateTo]
      rw [ih _ j hjr (List.nodup_cons.mp hnd).2, setAgent_other _ _ _ _ hjt]

lemma receive_code_generated (a : AgentState) (m : AgentMessage)
    (h : m.message_type = "code_generated") :
    (receive_message a m).context
      = ctxSet a.context (m.from_agent ++ "_code") (.str m.content) := by
  unfold receive_message
  rw [h]
  simp

lemma ctxSet_append (ctx : Ctx) (k : String) (v : CtxVal)
    (h : ∀ p ∈ ctx, p.1 ≠ k) : ctxSet ctx k v = ctx ++ [(k, v)] := by
  unfold ctxSet
  have hany : ctx.any (fun p => p.1 == k) = false := by
    rw [List.any_eq_false]
    intro p hp
    simpa using h p hp
  rw [hany]
  simp

lemma agentId_injective (a b : AgentKind) (h : a.agentId = b.agentId) :
    a = b := by
  cases a <;> cases b <;> first | rfl | exact absurd h (by decide)

lemma append_code_inj {a b : String} (h : a ++ "_code" = b ++ "_code") :
    a = b := by
  have hd := congrArg String.data h
  simp only [String.data_append] at hd
  exact String.ext (List.append_cancel_right hd)

lemma execStage_ok_elim {llm : Oracle} {nb : Nat} {pc : ProblemContext}
    {rs : RunState} {s : AgentKind} {stags : List AgentKind} {rs2 : RunState}
    (hstep : execStage llm nb pc rs s stags = .ok rs2) :
    ∃ a2 code,
      generate_code llm (rs.agents s) pc = .ok (a2, code)
      ∧ rs2.agents = propagateTo (setAgent rs.agents s a2) s code stags
      ∧ rs2.results = rs.results ++
          [(s.agentId,
            { agent_id := s.agentId,
              cell_id := (update_or_create_cell rs.store nb s.cellType code
                s.agentId s.cellPosition).2.cell_id,
              code := code, cell_type := s.cellType, success := true })]
      ∧ rs2.store = (update_or_create_cell rs.store nb s.cellType code
          s.agentId s.cellPosition).1 := by
  unfold execStage at hstep
  cases hgen : generate_code llm (rs.agents s) pc with
  | error e =>
    rw [hgen] at hstep
    cases hstep
  | ok pr =>
    obtain ⟨a2, code⟩ := pr
    rw [hgen] at hstep
    rw [Except.ok.injEq] at hstep
    subst hstep
    exact ⟨a2, code, rfl, rfl, rfl, rfl⟩

lemma stateBeforeStage_ctx (llm : Oracle) (nb : Nat) (pc : ProblemContext) :
    ∀ (i : Nat) (stages : List AgentKind) (rs : RunState) (k : AgentKind)
      (rest : List AgentKind) (rs2 : RunState),
      stages.Nodup →
      (∀ j ∈ stages, (rs.agents j).context = ctxOfResults rs.results) →
      (∀ j ∈ stages, j.agentId ∉ rs.results.map Prod.fst) →
      stages.drop i = k :: rest →
      stateBeforeStage llm nb pc rs stages i = some rs2 →
      ((rs2.agents k).context = ctxOfResults rs2.results)
      ∧ rs2.results.map Prod.fst
          = rs.results.map Prod.fst ++ (stages.take i).map AgentKind.agentId := by
  intro i
  induction i with
  | zero =>
    intro stages rs k rest rs2 hnd hctx hkeys hdrop hrun
    have hrs : rs = rs2 := by simpa [stateBeforeStage] using hrun
    subst hrs
    have hk : k ∈ stages := by
      rw [List.drop_zero] at hdrop
      rw [hdrop]
      exact List.mem_cons_self _ _
    exact ⟨hctx k hk, by simp⟩
  | succ i ih =>
    intro stages rs k rest rs2 hnd hctx hkeys hdrop hrun
    cases stages with
    | nil => simp at hdrop
    | cons s stags =>
      simp only [stateBeforeStage] at hrun
      cases hstep : execStage llm nb pc rs s stags with
      | error e =>
        rw [hstep] at hrun
        cases hrun
      | ok rsMid =>
        rw [hstep] at hrun
        have hrun2 : stateBeforeStage llm nb pc rsMid stags i = some rs2 := hrun
        obtain ⟨a2, code, hgen, hagents, hresults, hstore⟩ :=
          execStage_ok_elim hstep
        have hnds : stags.Nodup := (List.nodup_cons.mp hnd).2
        have hsnot : s ∉ stags := (List.nodup_cons.mp hnd).1
        have hctx2 : ∀ j ∈ stags,
            (rsMid.agents j).context = ctxOfResults rsMid.results := by
          intro j hj
          have hjs : j ≠ s := fun h => hsnot (h ▸ hj)
          rw [hagents,
            propagateTo_mem s code stags (setAgent rs.agents s a2) j hj hnds,
            receive_code_generated _ _ rfl,
            setAgent_other _ _ _ _ hjs,
            hctx j (List.mem_cons_of_mem s hj),
            ctxSet_append]
          · rw [hresults]
            unfold ctxOfResults
            simp
          · intro p hp
            unfold ctxOfResults at hp
            rw [List.mem_map] at hp
            obtain ⟨pr, hpr, rfl⟩ := hp
            intro heq
            have hps : pr.1 = s.agentId := append_code_inj heq
            exact hkeys s (List.mem_cons_self s stags)
              (hps ▸ List.mem_map_of_mem Prod.fst hpr)
        have hkeys2 : ∀ j ∈ stags,
            j.agentId ∉ rsMid.results.map Prod.fst := by
          intro j hj
          rw [hresults]
          simp only [List.map_append, List.map_cons, List.map_nil,
            List.mem_append, List.mem_singleton]
          rintro (h | h)
          · exact hkeys j (List.mem_cons_of_mem s hj) h
          · have hjs : j = s := agentId_injective j s h
            exact hsnot (hjs ▸ hj)
        have hdrop2 : stags.drop i = k :: rest := by simpa using hdrop
        obtain ⟨hc, hk2⟩ := ih stags rsMid k rest rs2 hnds hctx2 hkeys2
          hdrop2 hrun2
        refine ⟨hc, ?_⟩
        rw [hk2, hresults]
        simp

/-- C2: a coordination run executes the seven agents in the fixed order
`problem_analyser, individuals_modelling, fitness_function,
crossover_function, mutation_function, selection_strategy,
code_integration`; at the moment stage `i` (0-based) starts generating,
that agent's context is exactly one `"{producer_agent_id}_code"` entry per
completed stage — i.e. the outputs of exactly stages `1..i`, whose keys
are the first `i` agent ids of the flow, hence never an output of a later
stage. -/
theorem pipeline_ordering_context (llm : Oracle) (store : CellStore)
    (nb : Nat) (pc : ProblemContext) (i : Nat) (k : AgentKind)
    (rest : List AgentKind) (rs : RunState)
    (hdrop : execution_flow.drop i = k :: rest)
    (hreach : stateBeforeStage llm nb pc (initRunState store)
        execution_flow i = some rs) :
    (execution_flow.map AgentKind.agentId
      = ["problem_analyser", "individuals_modelling", "fitness_function",
         "crossover_function", "mutation_function", "selection_strategy",
         "code_integration"])
    ∧ (rs.agents k).context = ctxOfResults rs.results
    ∧ rs.results.map Prod.fst
        = (execution_flow.take i).map AgentKind.agentId := by
  have h := stateBeforeStage_ctx llm nb pc i execution_flow
    (initRunState store) k rest rs (by decide)
    (fun j _ => rfl) (fun j _ => by simp [initRunState]) hdrop hreach
  exact ⟨by decide, h.1, by simpa [initRunState] using h.2⟩

/-- C2 witness: with a backend returning `"X"` for every call, the state
in which stage 4 (crossover) starts exists, and the theorem applies at it:
the crossover agent's context is exactly the three entries for the first
three stages. -/
theorem pipeline_ordering_context_witness :
    (execution_flow.map AgentKind.agentId
      = ["problem_analyser", "individuals_modelling", "fitness_function",
         "crossover_function", "mutation_function", "selection_strategy",
         "code_integration"])
    ∧ (((stateBeforeStage (fun _ _ _ => Except.ok "X") 1
          ⟨"t", "d", "optimization", [], []⟩ (initRunState emptyStore)
          execution_flow 3).getD (initRunState emptyStore)).agents
            AgentKind.crossover_function).context
        = ctxOfResults ((stateBeforeStage (fun _ _ _ => Except.ok "X") 1
            ⟨"t", "d", "optimization", [], []⟩ (initRunState emptyStore)
            execution_flow 3).getD (initRunState emptyStore)).results
    ∧ ((stateBeforeStage (fun _ _ _ => Except.ok "X") 1
          ⟨"t", "d", "optimization", [], []⟩ (initRunState emptyStore)
          execution_flow 3).getD (initRunState emptyStore)).results.map
            Prod.fst
        = (execution_flow.take 3).map AgentKind.agentId :=
  pipeline_ordering_context (fun _ _ _ => Except.ok "X") emptyStore 1
    ⟨"t", "d", "optimization", [], []⟩ 3 AgentKind.crossover_function
    [AgentKind.mutation_function, AgentKind.selection_strategy,
     AgentKind.code_integration]
    ((stateBeforeStage (fun _ _ _ => Except.ok "X") 1
        ⟨"t", "d", "optimization", [], []⟩ (initRunState emptyStore)
        execution_flow 3).getD (initRunState emptyStore))
    (by decide) rfl

lemma find?_ctxSet_map (k k2 : String) (v : CtxVal) (h : k2 ≠ k) :
    ∀ ctx : Ctx,
      ((ctx.map fun p => if p.1 == k then (k, v) else p).find?
          fun p => p.1 == k2)
        = ctx.find? fun p => p.1 == k2 := by
  have hkk2 : (k == k2) = false := by
    simp only [beq_eq_false_iff_ne, ne_eq]
    exact fun he => h he.symm
  intro ctx
  induction ctx with
  | nil => rfl
  | cons a t ih =>
    by_cases hak : (a.1 == k) = true
    · have ha : a.1 = k := by simpa using hak
      have ha2 : (a.1 == k2) = false := by rw [ha]; exact hkk2
      simp only [List.map_cons, hak, if_true, List.find?_cons, ha2, hkk2]
      exact ih
    · have hakf : (a.1 == k) = false := by simpa using hak
      simp only [List.map_cons, hakf, Bool.false_eq_true, if_false,
        List.find?_cons]
      cases ha2 : (a.1 == k2)
      · simp only [ha2]
        exact ih
      · simp only [ha2]

lemma ctxGet_ctxSet_ne (ctx : Ctx) (k k2 : String) (v : CtxVal)
    (h : k2 ≠ k) : ctxGet (ctxSet ctx k v) k2 = ctxGet ctx k2 := by
  unfold ctxSet ctxGet
  by_cases hany : (ctx.any fun p => p.1 == k) = true
  · rw [if_pos hany, find?_ctxSet_map k k2 v h ctx]
  · rw [if_neg hany, List.find?_append]
    have hkk2 : (k == k2) = false := by
      simp only [beq_eq_false_iff_ne, ne_eq]
      exact fun he => h he.symm
    have hnone : (([(k, v)] : Ctx).find? fun p => p.1 == k2) = none := by
      simp only [List.find?_cons, hkk2, List.find?_nil]
    rw [hnone]
    cases ctx.find? fun p => p.1 == k2 <;> rfl

lemma find?_ctxSet_map_self (k : String) (v : CtxVal) :
    ∀ ctx : Ctx, (ctx.any fun p => p.1 == k) = true →
      ((ctx.map fun p => if p.1 == k then (k, v) else p).find?
          fun p => p.1 == k) = some (k, v) := by
  intro ctx
  induction ctx with
  | nil => intro h; cases h
  | cons a t ih =>
    intro hany
    by_cases hak : (a.1 == k) = true
    · simp only [List.map_cons, hak, if_true, List.find?_cons, beq_self_eq_true]
    · have hakf : (a.1 == k) = false := by simpa using hak
      have hany2 : (t.any fun p => p.1 == k) = true := by
        rw [List.any_cons] at hany
        rcases Bool.or_eq_true_iff.mp hany with h1 | h1
        · exact absurd h1 hak
        · exact h1
      simp only [List.map_cons, hakf, Bool.false_eq_true, if_false,
        List.find?_cons]
      exact ih hany2

lemma ctxGet_ctxSet_same (ctx : Ctx) (k : String) (v : CtxVal) :
    ctxGet (ctxSet ctx k v) k = some v := by
  unfold ctxSet ctxGet
  by_cases hany : (ctx.any fun p => p.1 == k) = true
  · rw [if_pos hany, find?_ctxSet_map_self k v ctx hany]
    rfl
  · rw [if_neg hany, List.find?_append]
    have hnone : (ctx.find? fun p => p.1 == k) = none := by
      rw [List.find?_eq_none]
      intro p hp
      have hany2 : (ctx.any fun q => q.1 == k) = false := by
        simp only [Bool.not_eq_true] at hany
        exact hany
      exact List.any_eq_false.mp hany2 p hp
    rw [hnone]
    simp only [List.find?_cons, beq_self_eq_true, Option.none_or]
    rfl

lemma analysis_ne_code (s : String) : "analysis" ≠ s ++ "_code" := by
  intro h
  have hs : "_code".data <:+ "analysis".data := by
    refine ⟨s.data, ?_⟩
    have hd := congrArg String.data h
    simpa [String.data_append] using hd.symm
  exact absurd hs (by decide)

lemma receive_message_kind (a : AgentState) (m : AgentMessage) :
    (receive_message a m).kind = a.kind := by
  unfold receive_message
  by_cases h : (m.message_type == "code_generated") = true <;> simp [h]

lemma generate_code_ok_elim {llm : Oracle} {a : AgentState}
    {pc : ProblemContext} {a2 : AgentState} {code : String}
    (hok : generate_code llm a pc = .ok (a2, code)) :
    a2.kind = a.kind
    ∧ (a.kind = .problem_analyser →
        a2.context = ctxSet a.context "analysis"
          (.analysis (deriveAnalysis pc)))
    ∧ (a.kind ≠ .problem_analyser → a2.context = a.context) := by
  obtain ⟨ak, amsg, actx, agen⟩ := a
  unfold generate_code at hok
  cases hllm : llm (AgentState.prompt ⟨ak, amsg, actx, agen⟩ pc)
      ak.systemPrompt ak.maxTokens with
  | error e =>
    rw [hllm] at hok
    cases hok
  | ok c =>
    rw [hllm] at hok
    cases ak <;>
      (simp only [Except.ok.injEq, Prod.mk.injEq] at hok
       obtain ⟨ha, hc⟩ := hok
       subst ha
       first
         | exact ⟨rfl, fun _ => rfl, fun h => absurd rfl h⟩
         | exact ⟨rfl, fun h => by simp at h, fun _ => rfl⟩)

/-- Well-kindedness plus the C10 invariant: every agent object's class
matches its slot, and no agent other than the problem analyser holds an
`"analysis"` context entry. -/
def agentsWM (ags : Agents) : Prop :=
  (∀ j, (ags j).kind = j)
  ∧ (∀ j, j ≠ AgentKind.problem_analyser →
      ctxGet (ags j).context "analysis" = none)

lemma agentsWM_init : agentsWM initAgents :=
  ⟨fun _ => rfl, fun _ _ => rfl⟩

lemma propagateTo_kind (fromK : AgentKind) (code : String) :
    ∀ (targets : List AgentKind) (ags : Agents) (j : AgentKind),
      (propagateTo ags fromK code targets j).kind = (ags j).kind := by
  intro targets
  induction targets with
  | nil => intro ags j; rfl
  | cons t rest ih =>
    intro ags j
    simp only [propagateTo]
    rw [ih]
    by_cases hjt : j = t
    · subst hjt
      rw [setAgent_same]
      exact receive_message_kind _ _
    · rw [setAgent_other _ _ _ _ hjt]

lemma receive_code_analysis (a : AgentState) (m : AgentMessage)
    (h : m.message_type = "code_generated") :
    ctxGet (receive_message a m).context "analysis"
      = ctxGet a.context "analysis" := by
  rw [receive_code_generated a m h]
  exact ctxGet_ctxSet_ne _ _ _ _ (analysis_ne_code m.from_agent)

lemma propagateTo_analysis (fromK : AgentKind) (code : String) :
    ∀ (targets : List AgentKind) (ags : Agents) (j : AgentKind),
      ctxGet (propagateTo ags fromK code targets j).context "analysis"
        = ctxGet (ags j).context "analysis" := by
  intro targets
  induction targets with
  | nil => intro ags j; rfl
  | cons t rest ih =>
    intro ags j
    simp only [propagateTo]
    rw [ih]
    by_cases hjt : j = t
    · subst hjt
      rw [setAgent_same]
      exact receive_code_analysis _ _ rfl
    · rw [setAgent_other _ _ _ _ hjt]

lemma execStage_agentsWM {llm : Oracle} {nb : Nat} {pc : ProblemContext}
    {rs : RunState} {s : AgentKind} {stags : List AgentKind}
    {rs2 : RunState}
    (hstep : execStage llm nb pc rs s stags = .ok rs2)
    (hwm : agentsWM rs.agents) : agentsWM rs2.agents := by
  obtain ⟨a2, code, hgen, hagents, -, -⟩ := execStage_ok_elim hstep
  obtain ⟨hkinds, hana⟩ := hwm
  obtain ⟨hk2, hPA, hnPA⟩ := generate_code_ok_elim hgen
  constructor
  · intro j
    rw [hagents, propagateTo_kind]
    by_cases hjs : j = s
    · subst hjs
      rw [setAgent_same, hk2]
      exact hkinds j
    · rw [setAgent_other _ _ _ _ hjs]
      exact hkinds j
  · intro j hj
    rw [hagents, propagateTo_analysis]
    by_cases hjs : j = s
    · subst hjs
      rw [setAgent_same]
      have hknd : (rs.agents j).kind ≠ .problem_analyser := by
        rw [hkinds j]
        exact hj
      rw [hnPA hknd]
      exact hana j hj
    · rw [setAgent_other _ _ _ _ hjs]
      exact hana j hj

lemma stateBeforeStage_agentsWM (llm : Oracle) (nb : Nat)
    (pc : ProblemContext) :
    ∀ (i : Nat) (stages : List AgentKind) (rs rs2 : RunState),
      agentsWM rs.agents →
      stateBeforeStage llm nb pc rs stages i = some rs2 →
      agentsWM rs2.agents := by
  intro i
  induction i with
  | zero =>
    intro stages rs rs2 hwm hrun
    have hrs : rs = rs2 := by simpa [stateBeforeStage] using hrun
    exact hrs ▸ hwm
  | succ i ih =>
    intro stages rs rs2 hwm hrun
    cases stages with
    | nil => simp [stateBeforeStage] at hrun
    | cons s stags =>
      simp only [stateBeforeStage] at hrun
      cases hstep : execStage llm nb pc rs s stags with
      | error e =>
        rw [hstep] at hrun
        cases hrun
      | ok rsMid =>
        rw [hstep] at hrun
        exact ih stags rsMid rs2 (execStage_agentsWM hstep hwm) hrun

lemma execStages_agentsWM (llm : Oracle) (nb : Nat) (pc : ProblemContext) :
    ∀ (stages : List AgentKind) (rs : RunState),
      agentsWM rs.agents →
      agentsWM (execStages llm nb pc rs stages).1.agents := by
  intro stages
  induction stages with
  | nil => intro rs h; exact h
  | cons s stags ih =>
    intro rs h
    simp only [execStages]
    cases hstep : execStage llm nb pc rs s stags with
    | error e => exact h
    | ok rs2 => exact ih rs2 (execStage_agentsWM hstep h)

lemma coordinate_agents_state (llm : Oracle) (store : CellStore) (nb : Nat)
    (pc : ProblemContext) :
    (coordinate_agents llm store nb pc).1
      = (execStages llm nb pc (initRunState store) execution_flow).1 := by
  simp only [coordinate_agents]
  cases hrr : execStages llm nb pc (initRunState store) execution_flow with
  | mk rs err => cases err <;> rfl

/-- C10: the `analysis` mapping derived by the Problem Analyser is written
only into that agent's own context and is never broadcast.  At the start
of every stage of a run and in the final coordinator state, every agent
other than the problem analyser resolves `context["analysis"]` to the
empty-dict default (`none` here); and a successful Problem Analyser
generation writes the derived analysis into its own context. -/
theorem analysis_never_broadcast (llm : Oracle) (store : CellStore)
    (nb : Nat) (pc : ProblemContext) (i : Nat) (rs : RunState)
    (j : AgentKind)
    (hreach : stateBeforeStage llm nb pc (initRunState store)
        execution_flow i = some rs)
    (hj : j ≠ AgentKind.problem_analyser) :
    ctxGet (rs.agents j).context "analysis" = none
    ∧ ctxGet ((coordinate_agents llm store nb pc).1.agents j).context
        "analysis" = none
    ∧ (∀ a2 code,
        generate_code llm (initAgents .problem_analyser) pc
          = .ok (a2, code) →
        ctxGet a2.context "analysis"
          = some (.analysis (deriveAnalysis pc))) := by
  refine ⟨?_, ?_, ?_⟩
  · exact (stateBeforeStage_agentsWM llm nb pc i execution_flow
      (initRunState store) rs agentsWM_init hreach).2 j hj
  · rw [coordinate_agents_state]
    exact (execStages_agentsWM llm nb pc execution_flow
      (initRunState store) agentsWM_init).2 j hj
  · intro a2 code hok
    have h := generate_code_ok_elim hok
    rw [h.2.1 rfl]
    exact ctxGet_ctxSet_same _ _ _

/-- C10 witness: after a full run with a backend answering `"X"`
everywhere, the fitness agent (and the end-of-run state) still resolves
`"analysis"` to the default. -/
theorem analysis_never_broadcast_witness :
    ctxGet ((((stateBeforeStage (fun _ _ _ => Except.ok "X") 1
          ⟨"t", "d", "optimization", [], []⟩ (initRunState emptyStore)
          execution_flow 7).getD (initRunState emptyStore)).agents
            AgentKind.fitness_function).context) "analysis" = none
    ∧ ctxGet (((coordinate_agents (fun _ _ _ => Except.ok "X") emptyStore 1
          ⟨"t", "d", "optimization", [], []⟩).1.agents
            AgentKind.fitness_function).context) "analysis" = none
    ∧ (∀ a2 code,
        generate_code (fun _ _ _ => Except.ok "X")
            (initAgents .problem_analyser)
            ⟨"t", "d", "optimization", [], []⟩ = .ok (a2, code) →
        ctxGet a2.context "analysis"
          = some (.analysis (deriveAnalysis
              ⟨"t", "d", "optimization", [], []⟩))) :=
  analysis_never_broadcast (fun _ _ _ => Except.ok "X") emptyStore 1
    ⟨"t", "d", "optimization", [], []⟩ 7
    ((stateBeforeStage (fun _ _ _ => Except.ok "X") 1
        ⟨"t", "d", "optimization", [], []⟩ (initRunState emptyStore)
        execution_flow 7).getD (initRunState emptyStore))
    AgentKind.fitness_function rfl (by decide)

lemma coordinate_agents_total (llm : Oracle) (store : CellStore) (nb : Nat)
    (pc : ProblemContext) :
    ((coordinate_agents llm store nb pc).2.success = true
      ∧ (coordinate_agents llm store nb pc).2.error = none)
    ∨ ((coordinate_agents llm store nb pc).2.success = false
      ∧ ∃ e, (coordinate_agents llm store nb pc).2.error = some e) := by
  unfold coordinate_agents
  cases execStages llm nb pc (initRunState store) execution_flow with
  | mk rs err =>
    cases err with
    | none => exact Or.inl ⟨rfl, rfl⟩
    | some e => exact Or.inr ⟨rfl, ⟨e, rfl⟩⟩

/-- C3: when the backend succeeds for the first three stages (with
arbitrary prompt-dependent outputs) and raises a `GenerationError` for the
crossover stage, a run on a fresh notebook returns (never raises) a result
with `success = false`, the wrapped human-readable error, a results dict
holding exactly the successful entries for stages 1-3, and the three cells
persisted at version 1 remain (no rollback); moreover the coordinator is
total: for every backend and store it returns either success with no error
or failure with an error string. -/
theorem crossover_failure_partial_results (llm : Oracle)
    (g1 g2 g3 : String → Nat → String) (emsg : String) (nb : Nat)
    (pc : ProblemContext)
    (hPA : ∀ p t, llm p AgentKind.problem_analyser.systemPrompt t
      = .ok (g1 p t))
    (hIM : ∀ p t, llm p AgentKind.individuals_modelling.systemPrompt t
      = .ok (g2 p t))
    (hFF : ∀ p t, llm p AgentKind.fitness_function.systemPrompt t
      = .ok (g3 p t))
    (hCF : ∀ p t, llm p AgentKind.crossover_function.systemPrompt t
      = .error emsg) :
    (coordinate_agents llm emptyStore nb pc).2.success = false
    ∧ (coordinate_agents llm emptyStore nb pc).2.error
        = some ("Agent crossover_function code generation failed: " ++ emsg)
    ∧ (coordinate_agents llm emptyStore nb pc).2.message
        = "Agent coordination failed: "
          ++ ("Agent crossover_function code generation failed: " ++ emsg)
    ∧ (coordinate_agents llm emptyStore nb pc).2.results.map Prod.fst
        = ["problem_analyser", "individuals_modelling", "fitness_function"]
    ∧ (coordinate_agents llm emptyStore nb pc).2.results.map
        (fun pr => pr.2.success) = [true, true, true]
    ∧ (coordinate_agents llm emptyStore nb pc).1.store.rows.map
        (fun c => (c.cell_type, c.version, c.position, c.is_active))
        = [("problem_analysis", 1, 1, true),
           ("individual_representation", 1, 2, true),
           ("fitness", 1, 3, true)]
    ∧ (∀ (llm2 : Oracle) (store2 : CellStore),
        ((coordinate_agents llm2 store2 nb pc).2.success = true
          ∧ (coordinate_agents llm2 store2 nb pc).2.error = none)
        ∨ ((coordinate_agents llm2 store2 nb pc).2.success = false
          ∧ ∃ e, (coordinate_agents llm2 store2 nb pc).2.error = some e)) := by
  refine ⟨?_, ?_, ?_, ?_, ?_, ?_,
    fun llm2 store2 => coordinate_agents_total llm2 store2 nb pc⟩ <;>
    simp [coordinate_agents, execStages, execStage, generate_code,
      AgentState.prompt, initRunState, initAgents, mkAgent, setAgent,
      propagateTo, receive_message, execution_flow,
      hPA, hIM, hFF, hCF, update_or_create_cell, getCellByType,
      activeCellsOf, createCell, emptyStore, AgentKind.agentId,
      AgentKind.cellType, AgentKind.cellPosition]

/-- C3 witness: a concrete backend that fails exactly on the crossover
system prompt; the run on a fresh store reports partial results for
stages 1-3 with their version-1 cells persisted. -/
theorem crossover_failure_partial_results_witness :
    (coordinate_agents (fun _ s _ =>
      if s == AgentKind.crossover_function.systemPrompt then
        Except.error "boom"
      else Except.ok "X") emptyStore 1 ⟨"t", "d", "optimization", [], []⟩).2.success = false
    ∧ (coordinate_agents (fun _ s _ =>
      if s == AgentKind.crossover_function.systemPrompt then
        Except.error "boom"
      else Except.ok "X") emptyStore 1 ⟨"t", "d", "optimization", [], []⟩).2.error
        = some ("Agent crossover_function code generation failed: " ++ "boom")
    ∧ (coordinate_agents (fun _ s _ =>
      if s == AgentKind.crossover_function.systemPrompt then
        Except.error "boom"
      else Except.ok "X") emptyStore 1 ⟨"t", "d", "optimization", [], []⟩).2.message
        = "Agent coordination failed: "
          ++ ("Agent crossover_function code generation failed: " ++ "boom")
    ∧ (coordinate_agents (fun _ s _ =>
      if s == AgentKind.crossover_function.systemPrompt then
        Except.error "boom"
      else Except.ok "X") emptyStore 1 ⟨"t", "d", "optimization", [], []⟩).2.results.map Prod.fst
        = ["problem_analyser", "individuals_modelling", "fitness_function"]
    ∧ (coordinate_agents (fun _ s _ =>
      if s == AgentKind.crossover_function.systemPrompt then
        Except.error "boom"
      else Except.ok "X") emptyStore 1 ⟨"t", "d", "optimization", [], []⟩).2.results.map (fun pr => pr.2.success) = [true, true, true]
    ∧ (coordinate_agents (fun _ s _ =>
      if s == AgentKind.crossover_function.systemPrompt then
        Except.error "boom"
      else Except.ok "X") emptyStore 1 ⟨"t", "d", "optimization", [], []⟩).1.store.rows.map
        (fun c => (c.cell_type, c.version, c.position, c.is_active))
        = [("problem_analysis", 1, 1, true),
           ("individual_representation", 1, 2, true),
           ("fitness", 1, 3, true)]
    ∧ (∀ (llm2 : Oracle) (store2 : CellStore),
        ((coordinate_agents llm2 store2 1
            ⟨"t", "d", "optimization", [], []⟩).2.success = true
          ∧ (coordinate_agents llm2 store2 1
              ⟨"t", "d", "optimization", [], []⟩).2.error = none)
        ∨ ((coordinate_agents llm2 store2 1
            ⟨"t", "d", "optimization", [], []⟩).2.success = false
          ∧ ∃ e, (coordinate_agents llm2 store2 1
              ⟨"t", "d", "optimization", [], []⟩).2.error = some e)) :=
  crossover_failure_partial_results
    (fun _ s _ =>
      if s == AgentKind.crossover_function.systemPrompt then
        Except.error "boom"
      else Except.ok "X")
    (fun _ _ => "X") (fun _ _ => "X") (fun _ _ => "X") "boom" 1
    ⟨"t", "d", "optimization", [], []⟩
    (fun _ _ => rfl) (fun _ _ => rfl) (fun _ _ => rfl) (fun _ _ => rfl)

/-- A backend answering `"X"` to every call, for concrete evaluation. -/
def constOracle : Oracle := fun _ _ _ => .ok "X"

/-- A concrete problem context for the regeneration scenario. -/
def regenPC : ProblemContext :=
  ⟨"t", "d", "optimization", ["Maximize total coverage"], []⟩

/-- The store after a full successful coordination run on notebook 1. -/
def regenRunStore : CellStore :=
  (coordinate_agents constOracle emptyStore 1 regenPC).1.store

/-- C4 (evaluation at the failing input): after a full successful run,
regenerating `fitness` bumps only the fitness cell to version 2 and keeps
every other cell at version 1 — but the seeded context of the selected
agent is keyed `"{cell_type}_code"` (e.g. `individual_representation_code`),
not `"{producer_agent_id}_code"`, so the key the fitness agent actually
reads, `individuals_modelling_code`, is absent and its lookup falls back
to the empty string. -/
theorem regenerate_fitness_seeding_mismatch :
    (coordinate_agents constOracle emptyStore 1 regenPC).2.success = true
    ∧ regenRunStore.rows.map (fun c => (c.cell_type, c.version))
        = [("problem_analysis", 1), ("individual_representation", 1),
           ("fitness", 1), ("crossover", 1), ("mutation", 1),
           ("selection", 1), ("toolbox_registration", 1)]
    ∧ (regenerate_cell constOracle regenRunStore 1 "fitness"
        regenPC).1.rows.map (fun c => (c.cell_type, c.version))
        = [("problem_analysis", 1), ("individual_representation", 1),
           ("fitness", 2), ("crossover", 1), ("mutation", 1),
           ("selection", 1), ("toolbox_registration", 1)]
    ∧ (regenSeededAgent regenRunStore 1 "fitness"
        AgentKind.fitness_function).context.map Prod.fst
        = ["problem_analysis_code", "individual_representation_code",
           "crossover_code", "mutation_code", "selection_code",
           "toolbox_registration_code"]
    ∧ ctxGet (regenSeededAgent regenRunStore 1 "fitness"
        AgentKind.fitness_function).context "individuals_modelling_code"
        = none
    ∧ ctxGetStr (regenSeededAgent regenRunStore 1 "fitness"
        AgentKind.fitness_function).context "individuals_modelling_code"
        = "" :=
  ⟨rfl, rfl, rfl, rfl, rfl, rfl⟩
